import Mathlib

/-!
# pr-reviewer-service: reviewer assignment and pull-request lifecycle

A shallow embedding of `internal/service/service.go`, `internal/db/tx.go` and the
error mapping of `internal/handler/handler.go`.

* Service functions are translated statement by statement; every store call
  threads the database state explicitly.
* The generated data-access layer (`internal/db`, all of it but `tx.go`) is not
  part of the sources; its operations are modelled from the storage contract and
  the persisted schema of the specification, over an in-memory database.
* What the database server decides on its own (which calls fail, how candidates
  are ranked) and the third-party library functions (`uuid.Parse`,
  `UUID.String`, `Time.Format`) are parameters.
-/

namespace PrReviewer

/-! ## Go values -/

/-- Go `error` values: `errors.New`/`fmt.Errorf` without `%w` build an
`errorString`; `fmt.Errorf` with `%w` builds a `wrapError` whose `Unwrap` is the
wrapped error; a `pgError` is a `*pgconn.PgError`, the error of a statement the
server rejects, with its SQLSTATE code. -/
inductive GoError where
  | errorString (msg : String)
  | wrapError (msg : String) (err : GoError)
  | pgError (code : String) (message : String)
deriving DecidableEq, Repr

/-- The `Error()` method: the message. -/
def GoError.Error : GoError → String
  | .errorString m => m
  | .wrapError m _ => m
  | .pgError code message => "ERROR: " ++ message ++ " (SQLSTATE " ++ code ++ ")"

/-- The `Unwrap()` method. -/
def GoError.Unwrap : GoError → Option GoError
  | .errorString _ => none
  | .wrapError _ e => some e
  | .pgError _ _ => none

deriving instance DecidableEq for Except

/-- Go `strings.Contains(s, substr)`. -/
def stringsContains (s substr : String) : Bool :=
  s.data.tails.any (fun t => substr.data.isPrefixOf t)

/-- A parsed `uuid.UUID` (sixteen bytes, read as a number). -/
abbrev UUID := Nat

/-- A point in time (`time.Time`). -/
abbrev Time := Nat

/-- The type `pgtype.UUID`: the bytes and the validity flag (false means SQL NULL). -/
structure PgUUID where
  Bytes : UUID
  Valid : Bool
deriving DecidableEq, Repr

/-- Third-party library functions the service calls: `uuid.Parse`,
`UUID.String()` and `Time.Format("2006-01-02T15:04:05Z07:00")`. -/
structure Lib where
  uuidParse : String → Except GoError UUID
  uuidString : UUID → String
  timeFormat : Time → String

/-! ## Rows and database state -/

/-- Modelled from the spec: the row type `db.Team` (generated code, not in the
sources); fields as the service uses them. -/
structure Team where
  ID : UUID
  Name : String
deriving DecidableEq, Repr

/-- Modelled from the spec: the row type `db.User` (generated code, not in the
sources); fields as the service uses them. -/
structure User where
  ID : UUID
  Name : String
  TeamID : PgUUID
  IsActive : Bool
deriving DecidableEq, Repr

/-- Modelled from the spec: the row type `db.PullRequest` (generated code, not in
the sources); fields as the service uses them. -/
structure PullRequest where
  ID : UUID
  Title : String
  AuthorID : UUID
  Status : String
  CreatedAt : Time
  UpdatedAt : Time
deriving DecidableEq, Repr

/-- Modelled from the spec: the four persisted relations `teams`, `users`,
`pull_requests` and `pr_reviewers(pr_id, user_id)`; the assignment relation keeps
insertion order. -/
structure DB where
  teams : List Team
  users : List User
  pullRequests : List PullRequest
  prReviewers : List (UUID × UUID)
deriving DecidableEq, Repr

/-- The calls a client can issue to the database: the methods of the `Store`
interface of `service.go` and the three transaction-control calls of `tx.go`. -/
inductive Call where
  | Begin
  | Commit
  | Rollback
  | CreateTeam (name : String)
  | GetTeamByName (name : String)
  | GetUsersByTeamID (teamID : PgUUID)
  | UpsertUser (id : UUID) (name : String) (teamID : PgUUID) (isActive : Bool)
  | GetUser (id : UUID)
  | GetTeam (id : UUID)
  | SetUserActive (id : UUID) (isActive : Bool)
  | CreatePullRequestWithID (id : UUID) (title : String) (authorID : UUID)
  | UpdatePullRequestStatus (id : UUID) (status : String)
  | GetPullRequest (id : UUID)
  | GetOpenPullRequestsForReviewer (userID : UUID)
  | AddReviewerToPR (prID userID : UUID)
  | RemoveReviewerFromPR (prID userID : UUID)
  | GetReviewersForPR (prID : UUID)
  | GetCandidatesForInitialReview (authorID : UUID)
  | GetCandidatesForReassignment (id prID : UUID)
  | GetAssignmentCountsByUser
  | GetAssignmentCountsByPR
deriving DecidableEq, Repr

/-- What the database server decides and the sources do not fix:
`fault d c` is the error with which call `c`, issued in state `d`, fails for a
reason of its own (lost connection, cancelled context, ...), `none` when it does
not; the two candidate queries are the ordered lists the server returns;
`newTeamID d name` is the id the server generates for a team created in state
`d`. -/
structure Backend where
  fault : DB → Call → Option GoError
  candidatesForInitialReview : DB → UUID → List User
  candidatesForReassignment : DB → UUID → UUID → List User
  newTeamID : DB → String → UUID

/-- The error `pgx.ErrNoRows`, returned by a single-row query that finds nothing. -/
def ErrNoRows : GoError := .errorString "no rows in result set"

/-- The error of a statement the schema rejects (a `*pgconn.PgError`): SQLSTATE
`23505` for a unique or primary key, `23503` for a foreign key. -/
def constraintViolation (code constraint : String) : GoError :=
  .pgError code ("violates constraint " ++ constraint)

/-! ## Store operations -/

/-- Modelled from the spec: `getPullRequest(id) → PullRequest | NotFound`
(generated query, not in the sources). -/
def GetPullRequest (B : Backend) (db : DB) (id : UUID) : Except GoError PullRequest :=
  match B.fault db (.GetPullRequest id) with
  | some err => .error err
  | none =>
    match db.pullRequests.find? (fun r => r.ID == id) with
    | some r => .ok r
    | none => .error ErrNoRows

/-- Modelled from the spec: `getUser(id) → User | NotFound` (generated query, not
in the sources). -/
def GetUser (B : Backend) (db : DB) (id : UUID) : Except GoError User :=
  match B.fault db (.GetUser id) with
  | some err => .error err
  | none =>
    match db.users.find? (fun u => u.ID == id) with
    | some u => .ok u
    | none => .error ErrNoRows

/-- The row of a pull request created at time `now`: status `OPEN`, both
timestamps the creation time. -/
def openPullRequest (now : Time) (id : UUID) (title : String) (authorID : UUID) : PullRequest :=
  { ID := id, Title := title, AuthorID := authorID, Status := "OPEN",
    CreatedAt := now, UpdatedAt := now }

/-- Modelled from the spec: `createPullRequestWithID(id, title, authorID) →
PullRequest` (generated query, not in the sources): persists the new pull
request with status `OPEN`; the id is globally unique and the author references
`users`. -/
def CreatePullRequestWithID (B : Backend) (now : Time) (db : DB) (id : UUID) (title : String)
    (authorID : UUID) : Except GoError PullRequest × DB :=
  match B.fault db (.CreatePullRequestWithID id title authorID) with
  | some err => (.error err, db)
  | none =>
    if db.pullRequests.any (fun r => r.ID == id) then
      (.error (constraintViolation "23505" "pull_requests_pkey"), db)
    else if !db.users.any (fun u => u.ID == authorID) then
      (.error (constraintViolation "23503" "pull_requests_author_id_fkey"), db)
    else
      (.ok (openPullRequest now id title authorID),
       { db with pullRequests := db.pullRequests ++ [openPullRequest now id title authorID] })

/-- Modelled from the spec: `updatePullRequestStatus(id, status) → PullRequest`
(generated query, not in the sources): sets the status and sets the updated
timestamp to the time of the call. -/
def UpdatePullRequestStatus (B : Backend) (now : Time) (db : DB) (id : UUID) (status : String) :
    Except GoError PullRequest × DB :=
  match B.fault db (.UpdatePullRequestStatus id status) with
  | some err => (.error err, db)
  | none =>
    match db.pullRequests.find? (fun r => r.ID == id) with
    | none => (.error ErrNoRows, db)
    | some r =>
      (.ok { r with Status := status, UpdatedAt := now },
       { db with pullRequests := db.pullRequests.map (fun x =>
           if x.ID == id then { x with Status := status, UpdatedAt := now } else x) })

/-- Modelled from the spec: `addReviewerToPR(prID, userID) → ok` (generated
query, not in the sources): appends the assignment row; the schema has
`pr_id → pull_requests`, `user_id → users` and `unique(pr_id, user_id)`. -/
def AddReviewerToPR (B : Backend) (db : DB) (prID userID : UUID) : Except GoError Unit × DB :=
  match B.fault db (.AddReviewerToPR prID userID) with
  | some err => (.error err, db)
  | none =>
    if !db.pullRequests.any (fun r => r.ID == prID) then
      (.error (constraintViolation "23503" "pr_reviewers_pr_id_fkey"), db)
    else if !db.users.any (fun u => u.ID == userID) then
      (.error (constraintViolation "23503" "pr_reviewers_user_id_fkey"), db)
    else if db.prReviewers.any (fun a => a == (prID, userID)) then
      (.error (constraintViolation "23505" "pr_reviewers_pkey"), db)
    else
      (.ok (), { db with prReviewers := db.prReviewers ++ [(prID, userID)] })

/-- Modelled from the spec: `removeReviewerFromPR(prID, userID) → ok` (generated
query, not in the sources): deletes the assignment row if there is one. -/
def RemoveReviewerFromPR (B : Backend) (db : DB) (prID userID : UUID) : Except GoError Unit × DB :=
  match B.fault db (.RemoveReviewerFromPR prID userID) with
  | some err => (.error err, db)
  | none => (.ok (), { db with prReviewers := db.prReviewers.filter (fun a => !(a == (prID, userID))) })

/-- The assignment rows of a pull request, as user ids in insertion order. -/
def assignedIDs (db : DB) (prID : UUID) : List UUID :=
  (db.prReviewers.filter (fun a => a.1 == prID)).map (fun a => a.2)

/-- Modelled from the spec: `getReviewersForPR(prID) → ordered sequence of User`
(generated query, not in the sources): the users assigned to the pull request,
in assignment order. -/
def GetReviewersForPR (B : Backend) (db : DB) (prID : UUID) : Except GoError (List User) :=
  match B.fault db (.GetReviewersForPR prID) with
  | some err => .error err
  | none => .ok ((assignedIDs db prID).filterMap (fun uid => db.users.find? (fun u => u.ID == uid)))

/-- Modelled from the spec: `getCandidatesForInitialReview(authorID) → ordered
sequence of User` (generated query, not in the sources); the rows and their
order are the backend's. -/
def GetCandidatesForInitialReview (B : Backend) (db : DB) (authorID : UUID) :
    Except GoError (List User) :=
  match B.fault db (.GetCandidatesForInitialReview authorID) with
  | some err => .error err
  | none => .ok (B.candidatesForInitialReview db authorID)

/-- Modelled from the spec: `getCandidatesForReassignment(oldReviewerID, prID) →
ordered sequence of User` (generated query, not in the sources); the rows and
their order are the backend's. -/
def GetCandidatesForReassignment (B : Backend) (db : DB) (id prID : UUID) :
    Except GoError (List User) :=
  match B.fault db (.GetCandidatesForReassignment id prID) with
  | some err => .error err
  | none => .ok (B.candidatesForReassignment db id prID)

/-- The SQL NULL of type `pgtype.UUID`: a value that is not valid carries no
bytes to the server. -/
def PgUUID.null : PgUUID := { Bytes := 0, Valid := false }

/-- What the server receives for a `pgtype.UUID` parameter: the value itself when
it is valid, NULL otherwise. -/
def PgUUID.encode (x : PgUUID) : PgUUID :=
  if x.Valid then x else PgUUID.null

/-- Modelled from the spec: `createTeam(name) → Team | Conflict(DuplicateName)`
(generated query, not in the sources): the name is unique, the id is generated
by the server. -/
def CreateTeam (B : Backend) (db : DB) (name : String) : Except GoError Team × DB :=
  match B.fault db (.CreateTeam name) with
  | some err => (.error err, db)
  | none =>
    if db.teams.any (fun t => t.Name == name) then
      (.error (constraintViolation "23505" "teams_name_key"), db)
    else if db.teams.any (fun t => t.ID == B.newTeamID db name) then
      (.error (constraintViolation "23505" "teams_pkey"), db)
    else
      (.ok { ID := B.newTeamID db name, Name := name },
       { db with teams := db.teams ++ [{ ID := B.newTeamID db name, Name := name }] })

/-- Modelled from the spec: `getTeamByName(name) → Team | NotFound` (generated
query, not in the sources). -/
def GetTeamByName (B : Backend) (db : DB) (name : String) : Except GoError Team :=
  match B.fault db (.GetTeamByName name) with
  | some err => .error err
  | none =>
    match db.teams.find? (fun t => t.Name == name) with
    | some t => .ok t
    | none => .error ErrNoRows

/-- Modelled from the spec: the lookup of a team by id behind `Store.GetTeam`
(generated query, not in the sources), a point lookup like `getUser`. -/
def GetTeam (B : Backend) (db : DB) (id : UUID) : Except GoError Team :=
  match B.fault db (.GetTeam id) with
  | some err => .error err
  | none =>
    match db.teams.find? (fun t => t.ID == id) with
    | some t => .ok t
    | none => .error ErrNoRows

/-- Modelled from the spec: `upsertUser(id, name, teamID, active) → User`
(generated query, not in the sources): a repeated registration with the same id
updates name, team and active flag; `team_id` references `teams`, and a team
reference that is not valid is stored as NULL. -/
def UpsertUser (B : Backend) (db : DB) (id : UUID) (name : String) (teamID : PgUUID)
    (isActive : Bool) : Except GoError User × DB :=
  match B.fault db (.UpsertUser id name teamID isActive) with
  | some err => (.error err, db)
  | none =>
    if teamID.Valid && !db.teams.any (fun t => t.ID == teamID.Bytes) then
      (.error (constraintViolation "23503" "users_team_id_fkey"), db)
    else
      let row : User := { ID := id, Name := name, TeamID := teamID.encode, IsActive := isActive }
      if db.users.any (fun u => u.ID == id) then
        (.ok row, { db with users := db.users.map (fun u => if u.ID == id then row else u) })
      else
        (.ok row, { db with users := db.users ++ [row] })

/-- Modelled from the spec: the query behind `Store.GetUsersByTeamID` (generated
query, not in the sources): the users whose team reference is the given one. A
NULL parameter equals no reference and a NULL reference equals no parameter. -/
def GetUsersByTeamID (B : Backend) (db : DB) (teamID : PgUUID) : Except GoError (List User) :=
  match B.fault db (.GetUsersByTeamID teamID) with
  | some err => .error err
  | none =>
    .ok (db.users.filter (fun u =>
      teamID.Valid && u.TeamID.Valid && u.TeamID.Bytes == teamID.Bytes))

/-- Modelled from the spec: `setUserActive(id, active) → ok | NotFound` (generated
query, not in the sources). -/
def SetUserActive (B : Backend) (db : DB) (id : UUID) (isActive : Bool) :
    Except GoError Unit × DB :=
  match B.fault db (.SetUserActive id isActive) with
  | some err => (.error err, db)
  | none =>
    if db.users.any (fun u => u.ID == id) then
      (.ok (), { db with users := db.users.map (fun u =>
          if u.ID == id then { u with IsActive := isActive } else u) })
    else
      (.error ErrNoRows, db)

/-! ## Transactions (`internal/db/tx.go`) -/

/-- The dynamic type of the field `q.db` of a `Queries` value: a connection pool,
an open transaction, or anything else. -/
inductive DBTX where
  | pool
  | tx
  | other
deriving DecidableEq, Repr

/-- A transaction-control call issued by `ExecTx`, with whether it succeeded. -/
inductive TxEvent where
  | begin (ok : Bool)
  | commit (ok : Bool)
  | rollback (ok : Bool)
deriving DecidableEq, Repr

/-- Outcome of `ExecTx`: the returned error or the values the unit of work left
in its captured variables, the database state visible afterwards, and the
transaction-control calls `ExecTx` issued, in order. -/
structure TxOutcome (α : Type) where
  result : Except GoError α
  db : DB
  events : List TxEvent

/-- The method `Queries.ExecTx`. A unit of work is a function from the state it
sees to its result and the state it leaves. On a `Queries` bound to a transaction
the unit of work runs on that transaction. On a pool a transaction is begun on a
copy of the state; the copy becomes the visible state only when `Commit`
succeeds. (The deferred `recover` is for panics, which the model has none of.) -/
def ExecTx {α : Type} (B : Backend) (q : DBTX) (fn : DB → Except GoError α × DB) (db : DB) :
    TxOutcome α :=
  match q with
  | .tx =>
    let r := fn db
    { result := r.1, db := r.2, events := [] }
  | .other => { result := .error (.errorString "ExecTx: unsupported db type"), db := db, events := [] }
  | .pool =>
    match B.fault db .Begin with
    | some err =>
      { result := .error (.wrapError ("begin tx: " ++ err.Error) err), db := db,
        events := [.begin false] }
    | none =>
      match fn db with
      | (.error err, txdb) =>
        match B.fault txdb .Rollback with
        | some rbErr =>
          { result := .error (.wrapError (err.Error ++ "; rollback error: " ++ rbErr.Error) err),
            db := db, events := [.begin true, .rollback false] }
        | none => { result := .error err, db := db, events := [.begin true, .rollback true] }
      | (.ok a, txdb) =>
        match B.fault txdb .Commit with
        | some err =>
          { result := .error (.wrapError ("commit tx: " ++ err.Error) err), db := db,
            events := [.begin true, .commit false] }
        | none => { result := .ok a, db := txdb, events := [.begin true, .commit true] }

/-! ## Service (`internal/service/service.go`) -/

/-- The result record `PRDetails`. -/
structure PRDetails where
  PullRequestID : String
  PullRequestName : String
  AuthorID : String
  Status : String
  AssignedReviewers : List String
  CreatedAt : Option String
  MergedAt : Option String
  ReplacedBy : String
deriving DecidableEq, Repr

/-- The loop `for i := range candidates` of `CreatePullRequest`: `i` is the loop
index, `assigned` the captured slice; it stops at index 2 and returns at the
first failing `AddReviewerToPR`. -/
def assignLoop (L : Lib) (B : Backend) (prID : UUID) :
    Nat → List User → List String → DB → Except GoError (List String) × DB
  | _, [], assigned, db => (.ok assigned, db)
  | i, c :: cs, assigned, db =>
    if i ≥ 2 then (.ok assigned, db)
    else
      match AddReviewerToPR B db prID c.ID with
      | (.error err, db1) => (.error err, db1)
      | (.ok _, db1) => assignLoop L B prID (i + 1) cs (assigned ++ [L.uuidString c.ID]) db1

/-- The statements `candidates, err := txq.GetCandidatesForInitialReview(ctx,
authorID)` and `if err != nil { candidates = []db.User{} }`. -/
def candidatesOrEmpty (B : Backend) (db : DB) (authorID : UUID) : List User :=
  match GetCandidatesForInitialReview B db authorID with
  | .error _ => []
  | .ok cs => cs

/-- The closure `CreatePullRequest` hands to `ExecTx`; on success it leaves the
captured variables `createdPR` and `assigned`. -/
def createPullRequestTx (L : Lib) (B : Backend) (now : Time) (prID title authorIDStr : String)
    (db : DB) : Except GoError (PullRequest × List String) × DB :=
  match L.uuidParse prID with
  | .error err => (.error (.wrapError ("invalid pull_request_id format: " ++ err.Error) err), db)
  | .ok prUUID =>
    match L.uuidParse authorIDStr with
    | .error err => (.error (.wrapError ("invalid author_id format: " ++ err.Error) err), db)
    | .ok authorID =>
      match GetPullRequest B db prUUID with
      | .ok _ => (.error (.errorString "PR_EXISTS"), db)
      | .error _ =>
        match GetUser B db authorID with
        | .error _ => (.error (.errorString "author not found"), db)
        | .ok _ =>
          match CreatePullRequestWithID B now db prUUID title authorID with
          | (.error err, db1) => (.error err, db1)
          | (.ok pr, db1) =>
            let candidates := candidatesOrEmpty B db1 authorID
            match assignLoop L B pr.ID 0 candidates [] db1 with
            | (.error err, db2) => (.error err, db2)
            | (.ok assigned, db2) => (.ok (pr, assigned), db2)

/-- The method `Service.CreatePullRequest`, for a service whose store is a
`Queries` value with `q.db` of dynamic type `q`; `now` is the server time of the
call. Returns the result and the database state visible afterwards. -/
def CreatePullRequest (L : Lib) (B : Backend) (q : DBTX) (now : Time)
    (prID title authorIDStr : String) (db : DB) : Except GoError PRDetails × DB :=
  let out := ExecTx B q (createPullRequestTx L B now prID title authorIDStr) db
  match out.result with
  | .error err => (.error err, out.db)
  | .ok (createdPR, assigned) =>
    (.ok { PullRequestID := L.uuidString createdPR.ID
           PullRequestName := createdPR.Title
           AuthorID := L.uuidString createdPR.AuthorID
           Status := createdPR.Status
           AssignedReviewers := assigned
           CreatedAt := some (L.timeFormat createdPR.CreatedAt)
           MergedAt := none
           ReplacedBy := "" }, out.db)

/-- The statement `reviewers, _ := s.store.GetReviewersForPR(ctx, prID)`: the
error is dropped and the slice is nil when the call fails. -/
def reviewersIgnoringError (B : Backend) (db : DB) (prID : UUID) : List User :=
  match GetReviewersForPR B db prID with
  | .ok rs => rs
  | .error _ => []

/-- The method `Service.UpdatePRStatusToMerged`; `now` is the server time of the
call. -/
def UpdatePRStatusToMerged (L : Lib) (B : Backend) (now : Time) (prIDStr : String) (db : DB) :
    Except GoError PRDetails × DB :=
  match L.uuidParse prIDStr with
  | .error err => (.error (.wrapError ("invalid pull_request_id format: " ++ err.Error) err), db)
  | .ok prID =>
    match GetPullRequest B db prID with
    | .error _ => (.error (.errorString "PR not found"), db)
    | .ok existingPR =>
      if existingPR.Status = "MERGED" then
        let reviewers := reviewersIgnoringError B db prID
        (.ok { PullRequestID := L.uuidString existingPR.ID
               PullRequestName := existingPR.Title
               AuthorID := L.uuidString existingPR.AuthorID
               Status := existingPR.Status
               AssignedReviewers := reviewers.map (fun r => L.uuidString r.ID)
               CreatedAt := some (L.timeFormat existingPR.CreatedAt)
               MergedAt := some (L.timeFormat existingPR.UpdatedAt)
               ReplacedBy := "" }, db)
      else
        match UpdatePullRequestStatus B now db prID "MERGED" with
        | (.error err, db1) => (.error err, db1)
        | (.ok pr, db1) =>
          let reviewers := reviewersIgnoringError B db1 prID
          (.ok { PullRequestID := L.uuidString pr.ID
                 PullRequestName := pr.Title
                 AuthorID := L.uuidString pr.AuthorID
                 Status := pr.Status
                 AssignedReviewers := reviewers.map (fun r => L.uuidString r.ID)
                 CreatedAt := some (L.timeFormat pr.CreatedAt)
                 MergedAt := some (L.timeFormat pr.UpdatedAt)
                 ReplacedBy := "" }, db1)

/-- The method `Service.ReassignReviewer`. Every store call is issued on the
service's own store, outside `ExecTx`. -/
def ReassignReviewer (L : Lib) (B : Backend) (prIDStr oldReviewerIDStr : String) (db : DB) :
    Except GoError PRDetails × DB :=
  match L.uuidParse prIDStr with
  | .error err => (.error (.wrapError ("invalid pull_request_id format: " ++ err.Error) err), db)
  | .ok prID =>
    match L.uuidParse oldReviewerIDStr with
    | .error err => (.error (.wrapError ("invalid user_id format: " ++ err.Error) err), db)
    | .ok oldReviewerID =>
      match GetPullRequest B db prID with
      | .error _ => (.error (.errorString "NOT_FOUND: PR not found"), db)
      | .ok pr =>
        if pr.Status = "MERGED" then
          (.error (.errorString "PR_MERGED: cannot reassign on merged PR"), db)
        else
          match GetReviewersForPR B db prID with
          | .error err => (.error err, db)
          | .ok reviewers =>
            let isAssigned := reviewers.any (fun r => r.ID == oldReviewerID)
            if !isAssigned then
              (.error (.errorString "NOT_ASSIGNED: reviewer is not assigned to this PR"), db)
            else
              match GetCandidatesForReassignment B db oldReviewerID prID with
              | .error err => (.error err, db)
              | .ok [] =>
                (.error (.errorString "NO_CANDIDATE: no active replacement candidate in team"), db)
              | .ok (newReviewer :: _) =>
                let newReviewerID := newReviewer.ID
                match RemoveReviewerFromPR B db prID oldReviewerID with
                | (.error err, db1) => (.error err, db1)
                | (.ok _, db1) =>
                  match AddReviewerToPR B db1 prID newReviewerID with
                  | (.error err, db2) => (.error err, db2)
                  | (.ok _, db2) =>
                    match GetPullRequest B db2 prID with
                    | .error err => (.error err, db2)
                    | .ok updatedPR =>
                      let updatedReviewers := reviewersIgnoringError B db2 prID
                      (.ok { PullRequestID := L.uuidString updatedPR.ID
                             PullRequestName := updatedPR.Title
                             AuthorID := L.uuidString updatedPR.AuthorID
                             Status := updatedPR.Status
                             AssignedReviewers := updatedReviewers.map (fun r => L.uuidString r.ID)
                             CreatedAt := some (L.timeFormat updatedPR.CreatedAt)
                             MergedAt := none
                             ReplacedBy := L.uuidString newReviewerID }, db2)

/-- The result record `TeamMemberDetails`, also the member record of a request. -/
structure TeamMemberDetails where
  UserID : String
  Username : String
  IsActive : Bool
deriving DecidableEq, Repr

/-- The result record `TeamDetails`. -/
structure TeamDetails where
  TeamName : String
  Members : List TeamMemberDetails
deriving DecidableEq, Repr

/-- The result record `UserDetails`. -/
structure UserDetails where
  User : User
  TeamName : String
deriving DecidableEq, Repr

/-- The composite literal `pgtype.UUID{Bytes: team.ID}` of `CreateTeamWithMembers`
and `GetTeamDetails`: the field `Valid` is not set and has its zero value. -/
def teamReference (teamID : UUID) : PgUUID :=
  { Bytes := teamID, Valid := false }

/-- The loop `for _, member := range members` of `CreateTeamWithMembers`;
`members` is the slice `resultDetails.Members` built so far. -/
def upsertMembersLoop (L : Lib) (B : Backend) (team : Team) (teamName : String) :
    List TeamMemberDetails → List TeamMemberDetails → DB →
      Except GoError (List TeamMemberDetails) × DB
  | [], members, db => (.ok members, db)
  | member :: rest, members, db =>
    match L.uuidParse member.UserID with
    | .error err =>
      (.error (.wrapError
        ("invalid UUID format for user " ++ member.UserID ++ ": " ++ err.Error) err), db)
    | .ok userID =>
      match UpsertUser B db userID member.Username (teamReference team.ID) member.IsActive with
      | (.error err, db1) =>
        (.error (.wrapError
          ("failed to upsert user " ++ member.Username ++ " (" ++ member.UserID
            ++ ") for team " ++ teamName ++ ": " ++ err.Error) err), db1)
      | (.ok _, db1) => upsertMembersLoop L B team teamName rest (members ++ [member]) db1

/-- The method `Service.CreateTeamWithMembers`. Every store call is issued on the
service's own store, outside `ExecTx`. -/
def CreateTeamWithMembers (L : Lib) (B : Backend) (teamName : String)
    (members : List TeamMemberDetails) (db : DB) : Except GoError TeamDetails × DB :=
  match CreateTeam B db teamName with
  | (.error err, db1) => (.error err, db1)
  | (.ok team, db1) =>
    match upsertMembersLoop L B team teamName members [] db1 with
    | (.error err, db2) => (.error err, db2)
    | (.ok resultMembers, db2) => (.ok { TeamName := team.Name, Members := resultMembers }, db2)

/-- The method `Service.GetTeamDetails`. -/
def GetTeamDetails (L : Lib) (B : Backend) (teamName : String) (db : DB) :
    Except GoError TeamDetails :=
  match GetTeamByName B db teamName with
  | .error err => .error err
  | .ok team =>
    match GetUsersByTeamID B db (teamReference team.ID) with
    | .error err => .error err
    | .ok users =>
      .ok { TeamName := team.Name
            Members := users.map (fun u =>
              { UserID := L.uuidString u.ID, Username := u.Name, IsActive := u.IsActive }) }

/-- The method `Service.SetUserActiveStatus`. -/
def SetUserActiveStatus (B : Backend) (userID : UUID) (isActive : Bool) (db : DB) :
    Except GoError UserDetails × DB :=
  match SetUserActive B db userID isActive with
  | (.error err, db1) => (.error err, db1)
  | (.ok _, db1) =>
    match GetUser B db1 userID with
    | .error err => (.error err, db1)
    | .ok user =>
      match GetTeam B db1 user.TeamID.Bytes with
      | .error _ => (.ok { User := user, TeamName := "" }, db1)
      | .ok team => (.ok { User := user, TeamName := team.Name }, db1)

/-! ## Error mapping of the transport layer (`internal/handler/handler.go`) -/

/-- The error branch of `Handler.CreateTeamWithMembers`: HTTP status and error
code; the type assertion `err.(*pgconn.PgError)` does not look through wrapping. -/
def createTeamWithMembersFailure (err : GoError) : Nat × String :=
  match err with
  | .pgError code _ => if code = "23505" then (400, "TEAM_EXISTS") else (500, "INTERNAL")
  | _ => (500, "INTERNAL")

/-- The error branch of `Handler.CreatePullRequest`: HTTP status and error code. -/
def createPullRequestFailure (err : GoError) : Nat × String :=
  let errMsg := err.Error
  if stringsContains errMsg "PR_EXISTS" then (409, "PR_EXISTS")
  else if stringsContains errMsg "not found" then (404, "NOT_FOUND")
  else (500, "INTERNAL")

/-- The error branch of `Handler.MergePullRequest`: HTTP status and error code. -/
def mergePullRequestFailure (err : GoError) : Nat × String :=
  if stringsContains err.Error "not found" then (404, "NOT_FOUND")
  else (500, "INTERNAL")

/-- The error branch of `Handler.ReassignReviewer`: HTTP status and error code. -/
def reassignReviewerFailure (err : GoError) : Nat × String :=
  let errMsg := err.Error
  if stringsContains errMsg "NOT_FOUND" then (404, "NOT_FOUND")
  else if stringsContains errMsg "PR_MERGED" then (409, "PR_MERGED")
  else if stringsContains errMsg "NOT_ASSIGNED" then (409, "NOT_ASSIGNED")
  else if stringsContains errMsg "NO_CANDIDATE" then (409, "NO_CANDIDATE")
  else (500, "INTERNAL")

/-- Go `unicode.IsSpace`: the characters with the Unicode White Space
property. -/
def unicodeIsSpace (c : Char) : Bool :=
  (9 ≤ c.toNat && c.toNat ≤ 13) || c.toNat == 32 || c.toNat == 133 || c.toNat == 160
    || c.toNat == 5760 || (8192 ≤ c.toNat && c.toNat ≤ 8202) || c.toNat == 8232
    || c.toNat == 8233 || c.toNat == 8239 || c.toNat == 8287 || c.toNat == 12288

/-- Go `strings.TrimSpace`. -/
def stringsTrimSpace (s : String) : String :=
  String.mk ((s.data.dropWhile unicodeIsSpace).reverse.dropWhile unicodeIsSpace).reverse

/-- What `Handler.CreateTeamWithMembers` writes: an error response (HTTP
status, error code, message) or the created team with its HTTP status. -/
inductive TeamAddResponse where
  | failure (httpStatus : Nat) (errorCode message : String)
  | created (httpStatus : Nat) (team : TeamDetails)
deriving DecidableEq, Repr

/-- The loop `for _, member := range req.Members` of
`Handler.CreateTeamWithMembers`: the message of the first check that fails, if
one does. -/
def validateMembers (L : Lib) : List TeamMemberDetails → Option String
  | [] => none
  | member :: rest =>
    match L.uuidParse member.UserID with
    | .error _ => some "invalid user_id format (must be UUID)"
    | .ok _ =>
      if stringsTrimSpace member.Username = "" then some "username cannot be empty"
      else validateMembers L rest

/-- The method `Handler.CreateTeamWithMembers`, from the decoded request on (a
body that does not decode is answered 400 before): the response and the
database state afterwards. -/
def handleCreateTeamWithMembers (L : Lib) (B : Backend) (reqTeamName : String)
    (reqMembers : List TeamMemberDetails) (db : DB) : TeamAddResponse × DB :=
  let teamName := stringsTrimSpace reqTeamName
  if teamName = "" then (.failure 400 "BAD_REQUEST" "team_name cannot be empty", db)
  else if reqMembers.length = 0 then
    (.failure 400 "BAD_REQUEST" "members list cannot be empty", db)
  else
    match validateMembers L reqMembers with
    | some message => (.failure 400 "BAD_REQUEST" message, db)
    | none =>
      match CreateTeamWithMembers L B teamName reqMembers db with
      | (.error err, db1) =>
        (match err with
          | .pgError code _ =>
            if code = "23505" then .failure 400 "TEAM_EXISTS" "team_name already exists"
            else .failure 500 "INTERNAL" "internal server error"
          | _ => .failure 500 "INTERNAL" "internal server error", db1)
      | (.ok teamDetails, db1) =>
        (.created 201 { TeamName := teamDetails.TeamName, Members := teamDetails.Members }, db1)

/-! ## Concurrent reassignment requests -/

/-- Where a `ReassignReviewer` call stands between two store calls (ids already
parsed): the variables it holds, or its result once it has returned. -/
inductive ReassignPhase where
  | start
  | gotPR
  | gotReviewers
  | gotCandidate (newReviewer : User)
  | removed (newReviewer : User)
  | added (newReviewer : User)
  | gotUpdated (newReviewer : User) (updatedPR : PullRequest)
  | done (result : Except GoError PRDetails)
deriving DecidableEq, Repr

/-- One store call of `ReassignReviewer` for the parsed ids `prID` and
`oldReviewerID`, with the statements up to the next store call: `GetPullRequest`,
`GetReviewersForPR`, `GetCandidatesForReassignment`, `RemoveReviewerFromPR`,
`AddReviewerToPR`, `GetPullRequest`, `GetReviewersForPR`. A call that has
returned stays as it is. -/
def reassignStep (L : Lib) (B : Backend) (prID oldReviewerID : UUID) :
    ReassignPhase → DB → ReassignPhase × DB
  | .start, db =>
    match GetPullRequest B db prID with
    | .error _ => (.done (.error (.errorString "NOT_FOUND: PR not found")), db)
    | .ok pr =>
      if pr.Status = "MERGED" then
        (.done (.error (.errorString "PR_MERGED: cannot reassign on merged PR")), db)
      else (.gotPR, db)
  | .gotPR, db =>
    match GetReviewersForPR B db prID with
    | .error err => (.done (.error err), db)
    | .ok reviewers =>
      let isAssigned := reviewers.any (fun r => r.ID == oldReviewerID)
      if !isAssigned then
        (.done (.error (.errorString "NOT_ASSIGNED: reviewer is not assigned to this PR")), db)
      else (.gotReviewers, db)
  | .gotReviewers, db =>
    match GetCandidatesForReassignment B db oldReviewerID prID with
    | .error err => (.done (.error err), db)
    | .ok [] =>
      (.done (.error (.errorString "NO_CANDIDATE: no active replacement candidate in team")), db)
    | .ok (newReviewer :: _) => (.gotCandidate newReviewer, db)
  | .gotCandidate newReviewer, db =>
    match RemoveReviewerFromPR B db prID oldReviewerID with
    | (.error err, db1) => (.done (.error err), db1)
    | (.ok _, db1) => (.removed newReviewer, db1)
  | .removed newReviewer, db =>
    match AddReviewerToPR B db prID newReviewer.ID with
    | (.error err, db1) => (.done (.error err), db1)
    | (.ok _, db1) => (.added newReviewer, db1)
  | .added newReviewer, db =>
    match GetPullRequest B db prID with
    | .error err => (.done (.error err), db)
    | .ok updatedPR => (.gotUpdated newReviewer updatedPR, db)
  | .gotUpdated newReviewer updatedPR, db =>
    let updatedReviewers := reviewersIgnoringError B db prID
    (.done (.ok { PullRequestID := L.uuidString updatedPR.ID
                  PullRequestName := updatedPR.Title
                  AuthorID := L.uuidString updatedPR.AuthorID
                  Status := updatedPR.Status
                  AssignedReviewers := updatedReviewers.map (fun r => L.uuidString r.ID)
                  CreatedAt := some (L.timeFormat updatedPR.CreatedAt)
                  MergedAt := none
                  ReplacedBy := L.uuidString newReviewer.ID }), db)
  | .done result, db => (.done result, db)

/-- A `ReassignReviewer` call run on its own: its seven steps in a row. -/
def reassignAlone (L : Lib) (B : Backend) (prID oldReviewerID : UUID) (db : DB) :
    ReassignPhase × DB :=
  Nat.iterate (fun x => reassignStep L B prID oldReviewerID x.1 x.2) 7 (.start, db)

/-- Two `ReassignReviewer` requests for the same pull request and the same old
reviewer, and the database they share. -/
structure TwoRequests where
  first : ReassignPhase
  second : ReassignPhase
  db : DB
deriving DecidableEq, Repr

/-- The next store call of one of the two requests: of the first for `true`, of
the second for `false`. -/
def stepTwo (L : Lib) (B : Backend) (prID oldReviewerID : UUID) (who : Bool)
    (s : TwoRequests) : TwoRequests :=
  if who then
    { first := (reassignStep L B prID oldReviewerID s.first s.db).1
      second := s.second
      db := (reassignStep L B prID oldReviewerID s.first s.db).2 }
  else
    { first := s.first
      second := (reassignStep L B prID oldReviewerID s.second s.db).1
      db := (reassignStep L B prID oldReviewerID s.second s.db).2 }

/-- An interleaving of the two requests: the schedule says whose store call comes
next. -/
def runSchedule (L : Lib) (B : Backend) (prID oldReviewerID : UUID) (schedule : List Bool)
    (s : TwoRequests) : TwoRequests :=
  schedule.foldl (fun st who => stepTwo L B prID oldReviewerID who st) s

/-- The replacement a request holds, if it holds one. -/
def ReassignPhase.candidate : ReassignPhase → Option User
  | .gotCandidate c => some c
  | .removed c => some c
  | .added c => some c
  | .gotUpdated c _ => some c
  | _ => none

/-- The request has had its `RemoveReviewerFromPR` succeed and has not failed
since: it is about to add its replacement, has added it, or has returned
successfully. -/
def ReassignPhase.pastRemove : ReassignPhase → Bool
  | .removed _ => true
  | .added _ => true
  | .gotUpdated _ _ => true
  | .done (.ok _) => true
  | _ => false

/-- The request has returned successfully. -/
def ReassignPhase.succeeded : ReassignPhase → Bool
  | .done (.ok _) => true
  | _ => false

/-! ## Operation sequences and statement helpers -/

/-- The service operations that act on pull requests, with their arguments. -/
inductive Op where
  | create (now : Time) (prID title authorIDStr : String)
  | merge (now : Time) (prIDStr : String)
  | reassign (prIDStr oldReviewerIDStr : String)
deriving DecidableEq, Repr

/-- The database state after one operation of the service. -/
def applyOp (L : Lib) (B : Backend) (q : DBTX) (op : Op) (db : DB) : DB :=
  match op with
  | .create now prID title authorIDStr => (CreatePullRequest L B q now prID title authorIDStr db).2
  | .merge now prIDStr => (UpdatePRStatusToMerged L B now prIDStr db).2
  | .reassign prIDStr oldReviewerIDStr => (ReassignReviewer L B prIDStr oldReviewerIDStr db).2

/-- The database state after a sequence of operations, first to last. -/
def runOps (L : Lib) (B : Backend) (q : DBTX) (ops : List Op) (db : DB) : DB :=
  ops.foldl (fun d op => applyOp L B q op d) db

/-- Pull request `p` has the same row and the same assignment rows in `db1` as
in `db`. -/
def Keeps (p : UUID) (db db1 : DB) : Prop :=
  db1.pullRequests.find? (fun r => r.ID == p) = db.pullRequests.find? (fun r => r.ID == p)
    ∧ assignedIDs db1 p = assignedIDs db p

/-- The state after the status of pull request `id` is set to `MERGED` at `now`. -/
def mergedDB (now : Time) (db : DB) (id : UUID) : DB :=
  { db with pullRequests := db.pullRequests.map (fun x =>
      if x.ID == id then { x with Status := "MERGED", UpdatedAt := now } else x) }

/-- The snapshot `UpdatePRStatusToMerged` builds from a row and a reviewer list. -/
def mergedDetails (L : Lib) (pr : PullRequest) (reviewers : List User) : PRDetails :=
  { PullRequestID := L.uuidString pr.ID
    PullRequestName := pr.Title
    AuthorID := L.uuidString pr.AuthorID
    Status := pr.Status
    AssignedReviewers := reviewers.map (fun r => L.uuidString r.ID)
    CreatedAt := some (L.timeFormat pr.CreatedAt)
    MergedAt := some (L.timeFormat pr.UpdatedAt)
    ReplacedBy := "" }

/-- The contract of the two candidate queries: an initial candidate is not the
author; a reassignment candidate is not the old reviewer, not the author of the
pull request and not one of its current reviewers. -/
def CandidatesHonourContract (B : Backend) : Prop :=
  (∀ (d : DB) (authorID : UUID), ∀ u ∈ B.candidatesForInitialReview d authorID, u.ID ≠ authorID)
  ∧ (∀ (d : DB) (old prID : UUID), ∀ u ∈ B.candidatesForReassignment d old prID,
      u.ID ≠ old
      ∧ (∀ pr ∈ d.pullRequests, pr.ID = prID → u.ID ≠ pr.AuthorID)
      ∧ u.ID ∉ assignedIDs d prID)

/-- The assignment relation is well formed: every row is of a stored pull
request, no pull request has its author among its reviewers, and no row occurs
twice. -/
def WellAssigned (db : DB) : Prop :=
  (∀ row ∈ db.prReviewers, ∃ pr ∈ db.pullRequests, pr.ID = row.1)
  ∧ (∀ pr ∈ db.pullRequests, pr.AuthorID ∉ assignedIDs db pr.ID)
  ∧ db.prReviewers.Nodup

/-! ## Concrete values for worked examples -/

/-- Reads a string of decimal digits. -/
def exParse (s : String) : Except GoError UUID :=
  if s.data.isEmpty then .error (.errorString "invalid UUID length: 0")
  else
    match s.data.foldl (fun acc c =>
        acc.bind (fun n => if c.isDigit then some (10 * n + (c.toNat - 48)) else none)) (some 0) with
    | some n => .ok n
    | none => .error (.errorString "invalid UUID format")

/-- A toy rendering of ids: decimal digits. -/
def exLib : Lib :=
  { uuidParse := exParse
    uuidString := fun u => toString u
    timeFormat := fun t => toString t }

/-- A backend in which exactly the call `failing` fails, with a lost connection,
and which returns the given candidates. -/
def exFailingBackend (failing : Call) (initial reassign : List User) : Backend :=
  { fault := fun _ c => if c = failing then some (.errorString "connection lost") else none
    candidatesForInitialReview := fun _ _ => initial
    candidatesForReassignment := fun _ _ _ => reassign
    newTeamID := fun d _ => 100 + d.teams.length }

/-- A backend that never fails on its own and returns the given candidates. -/
def exBackend (initial reassign : List User) : Backend :=
  { fault := fun _ _ => none
    candidatesForInitialReview := fun _ _ => initial
    candidatesForReassignment := fun _ _ _ => reassign
    newTeamID := fun d _ => 100 + d.teams.length }

/-- Example user with the given id, on team 100. -/
def exUser (id : UUID) : User :=
  { ID := id, Name := "u", TeamID := { Bytes := 100, Valid := true }, IsActive := true }

/-- Example state: users 1 to 4, no pull request. -/
def exDB : DB :=
  { teams := [{ ID := 100, Name := "backend" }]
    users := [exUser 1, exUser 2, exUser 3, exUser 4]
    pullRequests := []
    prReviewers := [] }

/-- Example state with pull request 10 of author 1, open, reviewers 2 and 3. -/
def exDBOpen : DB :=
  { exDB with
    pullRequests := [openPullRequest 7 10 "pr-1" 1]
    prReviewers := [(10, 2), (10, 3)] }

/-- Example state with pull request 10 merged at time 20, reviewers 2 and 3. -/
def exDBMerged : DB := mergedDB 20 exDBOpen 10

/-- A backend that never fails on its own and whose candidate queries honour
their contract: every other active user for the initial review; every active
user who is not the old reviewer, not an author of the pull request and not
assigned to it for a reassignment. -/
def exHonestBackend : Backend :=
  { fault := fun _ _ => none
    candidatesForInitialReview := fun d authorID =>
      d.users.filter (fun u => u.IsActive && !(u.ID == authorID))
    candidatesForReassignment := fun d old prID =>
      d.users.filter (fun u =>
        u.IsActive && !(u.ID == old)
          && !(d.pullRequests.any (fun pr => pr.ID == prID && pr.AuthorID == u.ID))
          && !((assignedIDs d prID).contains u.ID))
    newTeamID := fun d _ => 100 + d.teams.length }

/-- The store with no row at all. -/
def emptyDB : DB :=
  { teams := [], users := [], pullRequests := [], prReviewers := [] }

/-- Example member record with the given id string and name, active. -/
def exMember (id name : String) : TeamMemberDetails :=
  { UserID := id, Username := name, IsActive := true }

/-- A backend in which the call `failing` fails, with a lost connection, when it
is issued in the state `state`, and only then. -/
def exFailingInBackend (failing : Call) (state : DB) (initial reassign : List User) : Backend :=
  { fault := fun d c =>
      if c = failing ∧ d = state then some (.errorString "connection lost") else none
    candidatesForInitialReview := fun _ _ => initial
    candidatesForReassignment := fun _ _ _ => reassign
    newTeamID := fun d _ => 100 + d.teams.length }

/-! ## Store lemmas -/

theorem AddReviewerToPR_ok (B : Backend) (db : DB) (prID userID : UUID)
    (hf : B.fault db (.AddReviewerToPR prID userID) = none)
    (hpr : db.pullRequests.any (fun r => r.ID == prID) = true)
    (hu : db.users.any (fun u => u.ID == userID) = true)
    (hnew : (prID, userID) ∉ db.prReviewers) :
    AddReviewerToPR B db prID userID
      = (.ok (), { db with prReviewers := db.prReviewers ++ [(prID, userID)] }) := by
  have h3 : db.prReviewers.any (fun a => a == (prID, userID)) = false := by
    rw [Bool.eq_false_iff]
    intro h
    rw [List.any_eq_true] at h
    obtain ⟨a, ha, hab⟩ := h
    have : a = (prID, userID) := by simpa using hab
    exact hnew (this ▸ ha)
  simp [AddReviewerToPR, hf, hpr, hu, h3]

theorem assignLoop_ok (L : Lib) (B : Backend) (prID : UUID)
    (hf : ∀ d call, B.fault d call = none) :
    ∀ (cs : List User) (i : Nat) (assigned : List String) (db : DB),
      db.pullRequests.any (fun r => r.ID == prID) = true →
      (∀ u ∈ cs.take (2 - i), db.users.any (fun x => x.ID == u.ID) = true) →
      (∀ u ∈ cs.take (2 - i), (prID, u.ID) ∉ db.prReviewers) →
      ((cs.take (2 - i)).map (fun u => u.ID)).Nodup →
      assignLoop L B prID i cs assigned db
        = (.ok (assigned ++ (cs.take (2 - i)).map (fun u => L.uuidString u.ID)),
           { db with prReviewers :=
               db.prReviewers ++ (cs.take (2 - i)).map (fun u => (prID, u.ID)) }) := by
  intro cs
  induction cs with
  | nil => intro i assigned db _ _ _ _; simp [assignLoop]
  | cons c cs ih =>
    intro i assigned db hpr hu hnew hnd
    by_cases hi : i ≥ 2
    · have h0 : 2 - i = 0 := by omega
      simp [assignLoop, hi, h0]
    · obtain ⟨k, hk⟩ : ∃ k, 2 - i = k + 1 := ⟨1 - i, by omega⟩
      have hk' : 2 - (i + 1) = k := by omega
      rw [hk] at hu hnew hnd
      rw [hk]
      simp only [List.take_succ_cons, List.mem_cons, forall_eq_or_imp, List.map_cons,
        List.nodup_cons] at hu hnew hnd
      have hadd := AddReviewerToPR_ok B db prID c.ID (hf _ _) hpr hu.1 hnew.1
      have step := ih (i + 1) (assigned ++ [L.uuidString c.ID])
        { db with prReviewers := db.prReviewers ++ [(prID, c.ID)] } hpr
        (by rw [hk']; exact hu.2)
        (by
          rw [hk']
          intro u hmem hin
          rcases List.mem_append.mp hin with h | h
          · exact hnew.2 u hmem h
          · have : u.ID = c.ID := by simpa using h
            exact hnd.1 (List.mem_map.mpr ⟨u, hmem, this⟩))
        (by rw [hk']; exact hnd.2)
      rw [assignLoop]
      simp only [hi, if_false, hadd]
      rw [step, hk']
      simp

theorem find?_none_any_false {α : Type} (f : α → Bool) (l : List α) (h : l.find? f = none) :
    l.any f = false := by
  rw [Bool.eq_false_iff]
  intro hany
  rw [List.any_eq_true] at hany
  obtain ⟨x, hx, hfx⟩ := hany
  rw [List.find?_eq_none] at h
  exact h x hx hfx

theorem find?_some_any_true {α : Type} (f : α → Bool) (l : List α) (x : α)
    (h : l.find? f = some x) : l.any f = true := by
  rw [List.any_eq_true]
  exact ⟨x, List.mem_of_find?_eq_some h, List.find?_some h⟩

theorem CreatePullRequestWithID_ok (B : Backend) (now : Time) (db : DB) (id : UUID)
    (title : String) (authorID : UUID)
    (hf : B.fault db (.CreatePullRequestWithID id title authorID) = none)
    (hnew : db.pullRequests.any (fun r => r.ID == id) = false)
    (hu : db.users.any (fun u => u.ID == authorID) = true) :
    CreatePullRequestWithID B now db id title authorID
      = (.ok (openPullRequest now id title authorID),
         { db with pullRequests := db.pullRequests ++ [openPullRequest now id title authorID] }) := by
  simp [CreatePullRequestWithID, hf, hnew, hu]

theorem CreatePullRequestWithID_ok_state (B : Backend) (now : Time) (db db1 : DB) (id : UUID)
    (title : String) (authorID : UUID) (pr : PullRequest)
    (h : CreatePullRequestWithID B now db id title authorID = (.ok pr, db1)) :
    pr = openPullRequest now id title authorID
      ∧ db1 = { db with pullRequests := db.pullRequests ++ [openPullRequest now id title authorID] } := by
  unfold CreatePullRequestWithID at h
  split at h
  · simp at h
  · split at h
    · simp at h
    · split at h
      · simp at h
      · simp only [Prod.mk.injEq, Except.ok.injEq] at h
        exact ⟨h.1.symm, h.2.symm⟩

theorem mem_assignedIDs (db : DB) (prID u : UUID) :
    u ∈ assignedIDs db prID ↔ (prID, u) ∈ db.prReviewers := by
  simp only [assignedIDs, List.mem_map, List.mem_filter, beq_iff_eq]
  constructor
  · rintro ⟨a, ⟨ha, h1⟩, h2⟩
    have : a = (prID, u) := Prod.ext h1 h2
    exact this ▸ ha
  · intro h
    exact ⟨(prID, u), ⟨h, rfl⟩, rfl⟩

/-! ## Creating a pull request -/

/-- C1. A `CreatePullRequest` call with a new id and an existing author, in which
no store call fails (the backend raises no fault and the schema rejects no
insert: the first two candidates are distinct users of the store and the new id
has no assignment row yet), succeeds; with `c` the list the candidate query
returns, the reviewers persisted and the reviewers returned are the ids of
`c.take 2` in order: `min 2 |c|` of them, none when `c` is empty, two when
`|c| ≥ 2`, never more than two. -/
theorem createPullRequest_assigns_first_two (L : Lib) (B : Backend) (q : DBTX) (now : Time)
    (prID title authorIDStr : String) (db : DB) (p a : UUID) (author : User) (c : List User)
    (hq : q ≠ .other)
    (hp : L.uuidParse prID = .ok p) (ha : L.uuidParse authorIDStr = .ok a)
    (hnew : db.pullRequests.find? (fun r => r.ID == p) = none)
    (hauthor : db.users.find? (fun u => u.ID == a) = some author)
    (hf : ∀ d call, B.fault d call = none)
    (hc : GetCandidatesForInitialReview B
        { db with pullRequests := db.pullRequests ++ [openPullRequest now p title a] } a = .ok c)
    (husers : ∀ u ∈ c.take 2, db.users.any (fun x => x.ID == u.ID) = true)
    (hnd : ((c.take 2).map (fun u => u.ID)).Nodup)
    (hstale : assignedIDs db p = []) :
    ∃ d : PRDetails,
      CreatePullRequest L B q now prID title authorIDStr db
        = (.ok d,
           { db with
             pullRequests := db.pullRequests ++ [openPullRequest now p title a]
             prReviewers := db.prReviewers ++ (c.take 2).map (fun u => (p, u.ID)) })
      ∧ d.AssignedReviewers = (c.take 2).map (fun u => L.uuidString u.ID)
      ∧ assignedIDs (CreatePullRequest L B q now prID title authorIDStr db).2 p
          = (c.take 2).map (fun u => u.ID)
      ∧ d.AssignedReviewers.length = min 2 c.length
      ∧ (c = [] → d.AssignedReviewers = [])
      ∧ (2 ≤ c.length → d.AssignedReviewers.length = 2)
      ∧ d.AssignedReviewers.length ≤ 2 := by
  have hget : ∃ e, GetPullRequest B db p = .error e := by
    simp [GetPullRequest, hf, hnew]
  obtain ⟨e, hget⟩ := hget
  have huser : GetUser B db a = .ok author := by
    simp [GetUser, hf, hauthor]
  have hins := CreatePullRequestWithID_ok B now db p title a (hf _ _)
    (find?_none_any_false _ _ hnew) (find?_some_any_true _ _ _ hauthor)
  have hloop := assignLoop_ok L B p hf c 0 []
    { db with pullRequests := db.pullRequests ++ [openPullRequest now p title a] }
    (by simp [openPullRequest])
    (by simpa using husers)
    (by
      intro u _ hin
      have : u.ID ∈ assignedIDs db p := (mem_assignedIDs db p u.ID).mpr hin
      rw [hstale] at this
      exact absurd this (List.not_mem_nil _))
    (by simpa using hnd)
  have htx : createPullRequestTx L B now prID title authorIDStr db
      = (.ok (openPullRequest now p title a, (c.take 2).map (fun u => L.uuidString u.ID)),
         { db with
           pullRequests := db.pullRequests ++ [openPullRequest now p title a]
           prReviewers := db.prReviewers ++ (c.take 2).map (fun u => (p, u.ID)) }) := by
    simp only [createPullRequestTx, candidatesOrEmpty, hp, ha, hget, huser, hins, hc]
    have hid : (openPullRequest now p title a).ID = p := rfl
    rw [hid, hloop]
    simp
  have hcall : CreatePullRequest L B q now prID title authorIDStr db
      = (.ok { PullRequestID := L.uuidString p
               PullRequestName := title
               AuthorID := L.uuidString a
               Status := "OPEN"
               AssignedReviewers := (c.take 2).map (fun u => L.uuidString u.ID)
               CreatedAt := some (L.timeFormat now)
               MergedAt := none
               ReplacedBy := "" },
         { db with
           pullRequests := db.pullRequests ++ [openPullRequest now p title a]
           prReviewers := db.prReviewers ++ (c.take 2).map (fun u => (p, u.ID)) }) := by
    cases q with
    | other => exact absurd rfl hq
    | tx => simp [CreatePullRequest, ExecTx, htx, openPullRequest]
    | pool => simp [CreatePullRequest, ExecTx, htx, hf, openPullRequest]
  refine ⟨_, hcall, rfl, ?_, ?_, ?_, ?_, ?_⟩
  · rw [hcall]
    have h0 : (db.prReviewers.filter (fun a => a.1 == p)) = [] := by
      simpa [assignedIDs] using hstale
    have hfil : ∀ l : List User,
        (l.map (fun u => (p, u.ID))).filter (fun a => a.1 == p) = l.map (fun u => (p, u.ID)) := by
      intro l
      simp [List.filter_eq_self]
    simp only [assignedIDs, List.filter_append, h0, List.nil_append, hfil, List.map_map]
    rfl
  · simp [List.length_take]
  · intro h; simp [h]
  · intro h; simp [List.length_take]; omega
  · simp [List.length_take]

/-- Worked example for C1: author 1 of the example state, candidates 2, 3, 4;
reviewers 2 and 3 are assigned. -/
theorem createPullRequest_assigns_first_two_witness :
    ∃ d : PRDetails,
      (CreatePullRequest exLib (exBackend [exUser 2, exUser 3, exUser 4] []) .pool 7
          "10" "pr-1" "1" exDB).1 = .ok d
      ∧ d.AssignedReviewers = ["2", "3"]
      ∧ assignedIDs (CreatePullRequest exLib (exBackend [exUser 2, exUser 3, exUser 4] []) .pool 7
          "10" "pr-1" "1" exDB).2 10 = [2, 3] := by
  obtain ⟨d, h, hr, hs, _⟩ :=
    createPullRequest_assigns_first_two exLib (exBackend [exUser 2, exUser 3, exUser 4] [])
      .pool 7 "10" "pr-1" "1" exDB 10 1 (exUser 1) [exUser 2, exUser 3, exUser 4]
      (by decide) rfl rfl rfl rfl (fun _ _ => rfl) rfl (by decide) (by decide) rfl
  exact ⟨d, by rw [h], hr.trans (by decide), hs.trans (by decide)⟩

/-- C2. For well-formed ids and working lookups, `CreatePullRequest` fails with
`PR_EXISTS` (mapped to 409 `PR_EXISTS` by the handler) whenever the id is
already in `pull_requests`, whether or not the author exists, and otherwise
fails with `author not found` (mapped to 404 `NOT_FOUND`) whenever the author
id is not in `users`; in both cases the database is left as it was. -/
theorem createPullRequest_rejects (L : Lib) (B : Backend) (q : DBTX) (now : Time)
    (prID title authorIDStr : String) (db : DB) (p a : UUID)
    (hq : q ≠ .other)
    (hp : L.uuidParse prID = .ok p) (ha : L.uuidParse authorIDStr = .ok a)
    (hbegin : B.fault db .Begin = none) (hrollback : B.fault db .Rollback = none)
    (hgetpr : B.fault db (.GetPullRequest p) = none)
    (hgetuser : B.fault db (.GetUser a) = none) :
    (∀ existing : PullRequest, db.pullRequests.find? (fun r => r.ID == p) = some existing →
        CreatePullRequest L B q now prID title authorIDStr db
          = (.error (.errorString "PR_EXISTS"), db)
        ∧ createPullRequestFailure (.errorString "PR_EXISTS") = (409, "PR_EXISTS"))
    ∧ (db.pullRequests.find? (fun r => r.ID == p) = none →
        db.users.find? (fun u => u.ID == a) = none →
        CreatePullRequest L B q now prID title authorIDStr db
          = (.error (.errorString "author not found"), db)
        ∧ createPullRequestFailure (.errorString "author not found") = (404, "NOT_FOUND")) := by
  constructor
  · intro existing hfind
    have htx : createPullRequestTx L B now prID title authorIDStr db
        = (.error (.errorString "PR_EXISTS"), db) := by
      simp [createPullRequestTx, hp, ha, GetPullRequest, hgetpr, hfind]
    refine ⟨?_, by decide⟩
    cases q with
    | other => exact absurd rfl hq
    | tx => simp [CreatePullRequest, ExecTx, htx]
    | pool => simp [CreatePullRequest, ExecTx, htx, hbegin, hrollback]
  · intro hnopr hnouser
    have htx : createPullRequestTx L B now prID title authorIDStr db
        = (.error (.errorString "author not found"), db) := by
      simp [createPullRequestTx, hp, ha, GetPullRequest, hgetpr, hnopr, GetUser, hgetuser,
        hnouser]
    refine ⟨?_, by decide⟩
    cases q with
    | other => exact absurd rfl hq
    | tx => simp [CreatePullRequest, ExecTx, htx]
    | pool => simp [CreatePullRequest, ExecTx, htx, hbegin, hrollback]

/-- Worked example for C2: id 10 exists and author 9 does not; the failure is
`PR_EXISTS`. For the new id 11 the failure is `author not found`. -/
theorem createPullRequest_rejects_witness :
    CreatePullRequest exLib (exBackend [] []) .pool 8 "10" "again" "9" exDBOpen
        = (.error (.errorString "PR_EXISTS"), exDBOpen)
    ∧ CreatePullRequest exLib (exBackend [] []) .pool 8 "11" "other" "9" exDBOpen
        = (.error (.errorString "author not found"), exDBOpen) :=
  ⟨((createPullRequest_rejects exLib (exBackend [] []) .pool 8 "10" "again" "9" exDBOpen 10 9
      (by decide) rfl rfl rfl rfl rfl rfl).1 (openPullRequest 7 10 "pr-1" 1) rfl).1,
   ((createPullRequest_rejects exLib (exBackend [] []) .pool 8 "11" "other" "9" exDBOpen 11 9
      (by decide) rfl rfl rfl rfl rfl rfl).2 rfl rfl).1⟩

/-! ## All-or-nothing creation -/

theorem AddReviewerToPR_ok_state (B : Backend) (db db1 : DB) (prID userID : UUID) (u : Unit)
    (h : AddReviewerToPR B db prID userID = (.ok u, db1)) :
    db1 = { db with prReviewers := db.prReviewers ++ [(prID, userID)] } := by
  unfold AddReviewerToPR at h
  split at h
  · simp at h
  · split at h
    · simp at h
    · split at h
      · simp at h
      · split at h
        · simp at h
        · simp only [Prod.mk.injEq] at h
          exact h.2.symm

theorem AddReviewerToPR_error_state (B : Backend) (db db1 : DB) (prID userID : UUID)
    (e : GoError) (h : AddReviewerToPR B db prID userID = (.error e, db1)) : db1 = db := by
  unfold AddReviewerToPR at h
  split at h
  · simp only [Prod.mk.injEq] at h; exact h.2.symm
  · split at h
    · simp only [Prod.mk.injEq] at h; exact h.2.symm
    · split at h
      · simp only [Prod.mk.injEq] at h; exact h.2.symm
      · split at h
        · simp only [Prod.mk.injEq] at h; exact h.2.symm
        · simp at h

theorem assignLoop_fails (L : Lib) (B : Backend) (prID : UUID) :
    ∀ (cs : List User) (k i : Nat) (assigned : List String) (db : DB) (u : User) (e : GoError),
      (cs.take (2 - i))[k]? = some u →
      (AddReviewerToPR B
          { db with prReviewers :=
              db.prReviewers ++ ((cs.take (2 - i)).take k).map (fun x => (prID, x.ID)) }
          prID u.ID).1 = .error e →
      ∃ e', (assignLoop L B prID i cs assigned db).1 = .error e' := by
  intro cs
  induction cs with
  | nil => intro k i assigned db u e hk _; simp at hk
  | cons c cs ih =>
    intro k i assigned db u e hk hadd
    by_cases hi : i ≥ 2
    · have h0 : 2 - i = 0 := by omega
      simp [h0] at hk
    · obtain ⟨m, hm⟩ : ∃ m, 2 - i = m + 1 := ⟨1 - i, by omega⟩
      have hm' : 2 - (i + 1) = m := by omega
      rw [hm] at hk hadd
      rw [assignLoop]
      simp only [hi, if_false]
      cases k with
      | zero =>
        simp only [List.take_succ_cons, List.getElem?_cons_zero, Option.some.injEq] at hk
        subst hk
        simp only [List.take_zero, List.map_nil, List.append_nil] at hadd
        cases hres : AddReviewerToPR B db prID c.ID with
        | mk r db1 =>
          rw [hres] at hadd
          cases r with
          | error err => exact ⟨err, rfl⟩
          | ok v => simp at hadd
      | succ k =>
        simp only [List.take_succ_cons, List.getElem?_cons_succ, List.map_cons] at hk hadd
        cases hres : AddReviewerToPR B db prID c.ID with
        | mk r db1 =>
          cases r with
          | error err => exact ⟨err, rfl⟩
          | ok v =>
            have hst := AddReviewerToPR_ok_state B db db1 prID c.ID v hres
            subst hst
            simp only
            apply ih k (i + 1) _ _ u e
            · rw [hm']; exact hk
            · rw [hm']
              simpa using hadd

theorem ExecTx_pool_error_db {α : Type} (B : Backend) (fn : DB → Except GoError α × DB)
    (db : DB) (e : GoError) (h : (ExecTx B .pool fn db).result = .error e) :
    (ExecTx B .pool fn db).db = db := by
  unfold ExecTx at *
  cases hb : B.fault db .Begin with
  | some err => simp
  | none =>
    simp only [hb] at h ⊢
    cases hfn : fn db with
    | mk r txdb =>
      rw [hfn] at h
      cases r with
      | error err => cases hr : B.fault txdb .Rollback <;> simp [hr]
      | ok a =>
        cases hc : B.fault txdb .Commit with
        | some err => simp [hc]
        | none => simp [hc] at h

theorem ExecTx_pool_fn_error {α : Type} (B : Backend) (fn : DB → Except GoError α × DB)
    (db : DB) (e : GoError) (h : (fn db).1 = .error e) :
    ∃ e', (ExecTx B .pool fn db).result = .error e' := by
  unfold ExecTx
  cases hb : B.fault db .Begin with
  | some err => simp
  | none =>
    cases hfn : fn db with
    | mk r txdb =>
      rw [hfn] at h
      cases r with
      | error err => cases hr : B.fault txdb .Rollback <;> simp [hb, hr]
      | ok a => simp at h

theorem createPullRequest_error_state (L : Lib) (B : Backend) (now : Time)
    (prID title authorIDStr : String) (db : DB) (e : GoError)
    (h : (CreatePullRequest L B .pool now prID title authorIDStr db).1 = .error e) :
    (CreatePullRequest L B .pool now prID title authorIDStr db).2 = db := by
  unfold CreatePullRequest at *
  simp only at *
  cases hres : (ExecTx B .pool (createPullRequestTx L B now prID title authorIDStr) db).result with
  | error err =>
    simp only [hres]
    exact ExecTx_pool_error_db B _ db err hres
  | ok v => simp [hres] at h

theorem createPullRequest_tx_error (L : Lib) (B : Backend) (now : Time)
    (prID title authorIDStr : String) (db : DB) (e : GoError)
    (h : (createPullRequestTx L B now prID title authorIDStr db).1 = .error e) :
    ∃ e', CreatePullRequest L B .pool now prID title authorIDStr db = (.error e', db) := by
  obtain ⟨e', he'⟩ := ExecTx_pool_fn_error B _ db e h
  have h1 : (CreatePullRequest L B .pool now prID title authorIDStr db).1 = .error e' := by
    simp [CreatePullRequest, he']
  exact ⟨e', Prod.ext h1 (createPullRequest_error_state L B now prID title authorIDStr db e' h1)⟩

/-- C3. `CreatePullRequest` on a pool-backed store is all-or-nothing: whenever it
returns a failure the database is the one before the call; and it does return a
failure, with the database as before, when `CreatePullRequestWithID` fails and
when the `AddReviewerToPR` of any of the (at most two) selected candidates
fails in the state the earlier inserts of this call have reached. -/
theorem createPullRequest_all_or_nothing (L : Lib) (B : Backend) (now : Time)
    (prID title authorIDStr : String) (db : DB) (p a : UUID)
    (hp : L.uuidParse prID = .ok p) (ha : L.uuidParse authorIDStr = .ok a) :
    (∀ e, (CreatePullRequest L B .pool now prID title authorIDStr db).1 = .error e →
        (CreatePullRequest L B .pool now prID title authorIDStr db).2 = db)
    ∧ (∀ e, (CreatePullRequestWithID B now db p title a).1 = .error e →
        ∃ e', CreatePullRequest L B .pool now prID title authorIDStr db = (.error e', db))
    ∧ (∀ (k : Nat) (u : User) (e : GoError),
        ((candidatesOrEmpty B
            { db with pullRequests := db.pullRequests ++ [openPullRequest now p title a] }
            a).take 2)[k]? = some u →
        (AddReviewerToPR B
            { db with
              pullRequests := db.pullRequests ++ [openPullRequest now p title a]
              prReviewers := db.prReviewers ++
                (((candidatesOrEmpty B
                    { db with pullRequests := db.pullRequests ++ [openPullRequest now p title a] }
                    a).take 2).take k).map (fun x => (p, x.ID)) }
            p u.ID).1 = .error e →
        ∃ e', CreatePullRequest L B .pool now prID title authorIDStr db = (.error e', db)) := by
  refine ⟨fun e h => createPullRequest_error_state L B now prID title authorIDStr db e h, ?_, ?_⟩
  · intro e hins
    have : ∃ e', (createPullRequestTx L B now prID title authorIDStr db).1 = .error e' := by
      simp only [createPullRequestTx, hp, ha]
      cases hg : GetPullRequest B db p with
      | ok _ => exact ⟨_, rfl⟩
      | error _ =>
        cases hu : GetUser B db a with
        | error _ => exact ⟨_, rfl⟩
        | ok _ =>
          cases hc : CreatePullRequestWithID B now db p title a with
          | mk r db1 =>
            rw [hc] at hins
            cases r with
            | error err => exact ⟨_, rfl⟩
            | ok pr => simp at hins
    obtain ⟨e', he'⟩ := this
    exact createPullRequest_tx_error L B now prID title authorIDStr db e' he'
  · intro k u e hk hadd
    have : ∃ e', (createPullRequestTx L B now prID title authorIDStr db).1 = .error e' := by
      simp only [createPullRequestTx, hp, ha]
      cases hg : GetPullRequest B db p with
      | ok _ => exact ⟨_, rfl⟩
      | error _ =>
        cases hu : GetUser B db a with
        | error _ => exact ⟨_, rfl⟩
        | ok _ =>
          cases hc : CreatePullRequestWithID B now db p title a with
          | mk r db1 =>
            cases r with
            | error err => exact ⟨_, rfl⟩
            | ok pr =>
              obtain ⟨hpr, hdb⟩ := CreatePullRequestWithID_ok_state B now db db1 p title a pr hc
              subst hpr hdb
              obtain ⟨e', he'⟩ := assignLoop_fails L B p
                (candidatesOrEmpty B
                  { db with pullRequests := db.pullRequests ++ [openPullRequest now p title a] } a)
                k 0 [] { db with pullRequests := db.pullRequests ++ [openPullRequest now p title a] }
                u e hk hadd
              have hid : (openPullRequest now p title a).ID = p := rfl
              simp only [hid]
              cases hl : assignLoop L B p 0
                (candidatesOrEmpty B
                  { db with pullRequests := db.pullRequests ++ [openPullRequest now p title a] } a)
                [] { db with pullRequests := db.pullRequests ++ [openPullRequest now p title a] } with
              | mk r db2 =>
                rw [hl] at he'
                cases r with
                | error err => exact ⟨_, rfl⟩
                | ok v => simp at he'
    obtain ⟨e', he'⟩ := this
    exact createPullRequest_tx_error L B now prID title authorIDStr db e' he'

/-- Worked example for C3: the insert of the second reviewer, user 3, loses the
connection; the call fails and the example state is as before (no pull request
10, no assignment of user 2). -/
theorem createPullRequest_all_or_nothing_witness :
    ∃ e', CreatePullRequest exLib
        (exFailingBackend (.AddReviewerToPR 10 3) [exUser 2, exUser 3, exUser 4] []) .pool 7
        "10" "pr-1" "1" exDB = (.error e', exDB) :=
  (createPullRequest_all_or_nothing exLib
      (exFailingBackend (.AddReviewerToPR 10 3) [exUser 2, exUser 3, exUser 4] []) 7
      "10" "pr-1" "1" exDB 10 1 rfl rfl).2.2 1 (exUser 3) (.errorString "connection lost")
    (by decide) (by decide)

/-! ## Merging -/

theorem find?_map_update (id : UUID) (f : PullRequest → PullRequest)
    (hf : ∀ r, (f r).ID = r.ID) (l : List PullRequest) :
    (l.map (fun x => if x.ID == id then f x else x)).find? (fun r => r.ID == id)
      = (l.find? (fun r => r.ID == id)).map f := by
  induction l with
  | nil => rfl
  | cons x xs ih =>
    by_cases hx : x.ID = id
    · have hfx : (f x).ID = id := by rw [hf, hx]
      simp [List.find?, hx, hfx]
    · have hb : (x.ID == id) = false := by simpa using hx
      simp only [List.map_cons, hb, List.find?, ih]
      simp [hb]

theorem UpdatePullRequestStatus_ok (B : Backend) (now : Time) (db : DB) (id : UUID)
    (status : String) (r : PullRequest)
    (hf : B.fault db (.UpdatePullRequestStatus id status) = none)
    (hfind : db.pullRequests.find? (fun r => r.ID == id) = some r) :
    UpdatePullRequestStatus B now db id status
      = (.ok { r with Status := status, UpdatedAt := now },
         { db with pullRequests := db.pullRequests.map (fun x =>
             if x.ID == id then { x with Status := status, UpdatedAt := now } else x) }) := by
  simp [UpdatePullRequestStatus, hf, hfind]

theorem merge_of_merged (L : Lib) (B : Backend) (now : Time) (prIDStr : String) (db : DB)
    (p : UUID) (pr : PullRequest) (hp : L.uuidParse prIDStr = .ok p)
    (hf : ∀ d call, B.fault d call = none)
    (hfind : db.pullRequests.find? (fun r => r.ID == p) = some pr)
    (hst : pr.Status = "MERGED") :
    UpdatePRStatusToMerged L B now prIDStr db
      = (.ok (mergedDetails L pr
          ((assignedIDs db p).filterMap (fun uid => db.users.find? (fun u => u.ID == uid)))),
         db) := by
  simp [UpdatePRStatusToMerged, hp, GetPullRequest, hf, hfind, hst, reviewersIgnoringError,
    GetReviewersForPR, mergedDetails]

theorem merge_of_unmerged (L : Lib) (B : Backend) (now : Time) (prIDStr : String) (db : DB)
    (p : UUID) (pr : PullRequest) (hp : L.uuidParse prIDStr = .ok p)
    (hf : ∀ d call, B.fault d call = none)
    (hfind : db.pullRequests.find? (fun r => r.ID == p) = some pr)
    (hst : pr.Status ≠ "MERGED") :
    UpdatePRStatusToMerged L B now prIDStr db
      = (.ok (mergedDetails L { pr with Status := "MERGED", UpdatedAt := now }
          ((assignedIDs db p).filterMap (fun uid => db.users.find? (fun u => u.ID == uid)))),
         mergedDB now db p) := by
  have hu := UpdatePullRequestStatus_ok B now db p "MERGED" pr (hf _ _) hfind
  simp [UpdatePRStatusToMerged, hp, GetPullRequest, hf, hfind, hst, hu, reviewersIgnoringError,
    GetReviewersForPR, mergedDetails, mergedDB, assignedIDs]

theorem find?_mergedDB (now : Time) (db : DB) (p : UUID) :
    (mergedDB now db p).pullRequests.find? (fun r => r.ID == p)
      = (db.pullRequests.find? (fun r => r.ID == p)).map
          (fun r => { r with Status := "MERGED", UpdatedAt := now }) :=
  find?_map_update p (fun r => { r with Status := "MERGED", UpdatedAt := now }) (fun _ => rfl) _

/-- C4. With working store calls, `UpdatePRStatusToMerged` on a pull request that
is already `MERGED` succeeds, leaves the database as it is and reports the stored
update timestamp as `mergedAt`; and for any existing pull request a second merge,
at any later time `now2`, returns the very snapshot of the first merge (status,
reviewer list, `mergedAt`) and leaves the state the first merge produced. -/
theorem merge_idempotent (L : Lib) (B : Backend) (now now2 : Time) (prIDStr : String) (db : DB)
    (p : UUID) (pr : PullRequest) (hp : L.uuidParse prIDStr = .ok p)
    (hf : ∀ d call, B.fault d call = none)
    (hfind : db.pullRequests.find? (fun r => r.ID == p) = some pr) :
    (pr.Status = "MERGED" →
      ∃ d : PRDetails, UpdatePRStatusToMerged L B now prIDStr db = (.ok d, db)
        ∧ d.Status = "MERGED" ∧ d.MergedAt = some (L.timeFormat pr.UpdatedAt))
    ∧ (∃ (d : PRDetails) (db1 : DB),
        UpdatePRStatusToMerged L B now prIDStr db = (.ok d, db1)
        ∧ UpdatePRStatusToMerged L B now2 prIDStr db1 = (.ok d, db1)) := by
  constructor
  · intro hst
    refine ⟨_, merge_of_merged L B now prIDStr db p pr hp hf hfind hst, ?_, rfl⟩
    simpa [mergedDetails] using hst
  · by_cases hst : pr.Status = "MERGED"
    · exact ⟨_, _, merge_of_merged L B now prIDStr db p pr hp hf hfind hst,
        merge_of_merged L B now2 prIDStr db p pr hp hf hfind hst⟩
    · refine ⟨_, _, merge_of_unmerged L B now prIDStr db p pr hp hf hfind hst, ?_⟩
      have hfind1 : (mergedDB now db p).pullRequests.find? (fun r => r.ID == p)
          = some { pr with Status := "MERGED", UpdatedAt := now } := by
        rw [find?_mergedDB, hfind]; rfl
      exact merge_of_merged L B now2 prIDStr (mergedDB now db p) p _ hp hf hfind1 rfl

/-- Worked example for C4: pull request 10 of the example state is merged at time
20 and again at time 30; both calls return the same snapshot, with `mergedAt`
20, and the state after the second call is the state after the first. -/
theorem merge_idempotent_witness :
    ∃ (d : PRDetails) (db1 : DB),
      UpdatePRStatusToMerged exLib (exBackend [] []) 20 "10" exDBOpen = (.ok d, db1)
      ∧ UpdatePRStatusToMerged exLib (exBackend [] []) 30 "10" db1 = (.ok d, db1)
      ∧ d.MergedAt = some "20" := by
  obtain ⟨d, db1, h1, h2⟩ :=
    (merge_idempotent exLib (exBackend [] []) 20 30 "10" exDBOpen 10
      (openPullRequest 7 10 "pr-1" 1) rfl (fun _ _ => rfl) rfl).2
  refine ⟨d, db1, h1, h2, ?_⟩
  have h3 : UpdatePRStatusToMerged exLib (exBackend [] []) 20 "10" exDBOpen
      = (.ok d, db1) := h1
  have h4 : (UpdatePRStatusToMerged exLib (exBackend [] []) 20 "10" exDBOpen).1
      = .ok d := by rw [h3]
  have h5 : (UpdatePRStatusToMerged exLib (exBackend [] []) 20 "10" exDBOpen).1.toOption.bind
      (fun x => x.MergedAt) = some "20" := by decide
  rw [h4] at h5
  exact h5

/-- C5. With working store calls, `UpdatePRStatusToMerged` on an existing `OPEN`
pull request succeeds; afterwards the stored row has status `MERGED`, the
snapshot has status `MERGED` and its `mergedAt` is the stored row's update
timestamp (the time of the merge); the reviewer list returned is the list as it
stood before the merge, and the assignment relation is untouched. -/
theorem merge_open_pull_request (L : Lib) (B : Backend) (now : Time) (prIDStr : String)
    (db : DB) (p : UUID) (pr : PullRequest) (hp : L.uuidParse prIDStr = .ok p)
    (hf : ∀ d call, B.fault d call = none)
    (hfind : db.pullRequests.find? (fun r => r.ID == p) = some pr)
    (hopen : pr.Status = "OPEN") :
    ∃ (d : PRDetails) (db1 : DB) (row : PullRequest) (rs : List User),
      UpdatePRStatusToMerged L B now prIDStr db = (.ok d, db1)
      ∧ GetPullRequest B db1 p = .ok row
      ∧ row.Status = "MERGED" ∧ row.UpdatedAt = now
      ∧ d.Status = "MERGED"
      ∧ d.MergedAt = some (L.timeFormat row.UpdatedAt)
      ∧ GetReviewersForPR B db p = .ok rs
      ∧ GetReviewersForPR B db1 p = .ok rs
      ∧ d.AssignedReviewers = rs.map (fun r => L.uuidString r.ID)
      ∧ db1.prReviewers = db.prReviewers := by
  have hst : pr.Status ≠ "MERGED" := by rw [hopen]; decide
  refine ⟨_, _, { pr with Status := "MERGED", UpdatedAt := now }, _,
    merge_of_unmerged L B now prIDStr db p pr hp hf hfind hst, ?_, rfl, rfl, rfl, rfl, ?_, ?_,
    rfl, rfl⟩
  · simp [GetPullRequest, hf, find?_mergedDB, hfind]
  · simp [GetReviewersForPR, hf]
  · simp [GetReviewersForPR, hf, mergedDB, assignedIDs]

/-- Worked example for C5: merging pull request 10 of the example state at time
20 returns status `MERGED`, `mergedAt` 20 and the reviewers 2 and 3. -/
theorem merge_open_pull_request_witness :
    ∃ (d : PRDetails) (db1 : DB),
      UpdatePRStatusToMerged exLib (exBackend [] []) 20 "10" exDBOpen = (.ok d, db1)
      ∧ d.Status = "MERGED" ∧ d.AssignedReviewers = ["2", "3"]
      ∧ db1.prReviewers = [(10, 2), (10, 3)] := by
  obtain ⟨d, db1, row, rs, h, _, _, _, hs, _, hrs, _, hd, hdb⟩ :=
    merge_open_pull_request exLib (exBackend [] []) 20 "10" exDBOpen 10
      (openPullRequest 7 10 "pr-1" 1) rfl (fun _ _ => rfl) rfl rfl
  have hrs2 : rs = [exUser 2, exUser 3] := by
    have : GetReviewersForPR (exBackend [] []) exDBOpen 10 = .ok [exUser 2, exUser 3] := by
      decide
    rw [this] at hrs
    exact (Except.ok.inj hrs).symm
  subst hrs2
  exact ⟨d, db1, h, hs, hd.trans (by decide), hdb⟩

/-- C6. `UpdatePRStatusToMerged` on an id that no pull request has fails with
`PR not found`, which the handler maps to 404 `NOT_FOUND`, and leaves the
database as it was. -/
theorem merge_not_found (L : Lib) (B : Backend) (now : Time) (prIDStr : String) (db : DB)
    (p : UUID) (hp : L.uuidParse prIDStr = .ok p)
    (habsent : db.pullRequests.find? (fun r => r.ID == p) = none) :
    UpdatePRStatusToMerged L B now prIDStr db = (.error (.errorString "PR not found"), db)
      ∧ mergePullRequestFailure (.errorString "PR not found") = (404, "NOT_FOUND") := by
  refine ⟨?_, by decide⟩
  have hget : ∃ e, GetPullRequest B db p = .error e := by
    unfold GetPullRequest
    cases B.fault db (.GetPullRequest p) with
    | some err => exact ⟨err, rfl⟩
    | none => simp [habsent]
  obtain ⟨e, hget⟩ := hget
  simp [UpdatePRStatusToMerged, hp, hget]

/-- Worked example for C6: the example state has no pull request 11. -/
theorem merge_not_found_witness :
    UpdatePRStatusToMerged exLib (exBackend [] []) 20 "11" exDBOpen
      = (.error (.errorString "PR not found"), exDBOpen) :=
  (merge_not_found exLib (exBackend [] []) 20 "11" exDBOpen 11 rfl rfl).1

/-! ## Reassignment -/

/-- C7. With well-formed ids and working lookups, `ReassignReviewer` returns the
failure of the first precondition that does not hold and leaves the database as
it was: no such pull request gives `NOT_FOUND`; an existing pull request with
status `MERGED` gives `PR_MERGED`, whoever its reviewers are; an unmerged one
whose reviewers do not include the old reviewer gives `NOT_ASSIGNED`; and when
the old reviewer is assigned but the candidate list is empty, `NO_CANDIDATE`.
The handler maps each to the error code of the same name. -/
theorem reassign_preconditions (L : Lib) (B : Backend) (prIDStr oldReviewerIDStr : String)
    (db : DB) (p o : UUID)
    (hp : L.uuidParse prIDStr = .ok p) (ho : L.uuidParse oldReviewerIDStr = .ok o)
    (hgetpr : B.fault db (.GetPullRequest p) = none)
    (hcand : B.fault db (.GetCandidatesForReassignment o p) = none) :
    (db.pullRequests.find? (fun r => r.ID == p) = none →
      ReassignReviewer L B prIDStr oldReviewerIDStr db
        = (.error (.errorString "NOT_FOUND: PR not found"), db)
      ∧ reassignReviewerFailure (.errorString "NOT_FOUND: PR not found") = (404, "NOT_FOUND"))
    ∧ (∀ pr : PullRequest, db.pullRequests.find? (fun r => r.ID == p) = some pr →
      pr.Status = "MERGED" →
      ReassignReviewer L B prIDStr oldReviewerIDStr db
        = (.error (.errorString "PR_MERGED: cannot reassign on merged PR"), db)
      ∧ reassignReviewerFailure (.errorString "PR_MERGED: cannot reassign on merged PR")
        = (409, "PR_MERGED"))
    ∧ (∀ (pr : PullRequest) (rs : List User),
      db.pullRequests.find? (fun r => r.ID == p) = some pr → pr.Status ≠ "MERGED" →
      GetReviewersForPR B db p = .ok rs → (∀ r ∈ rs, r.ID ≠ o) →
      ReassignReviewer L B prIDStr oldReviewerIDStr db
        = (.error (.errorString "NOT_ASSIGNED: reviewer is not assigned to this PR"), db)
      ∧ reassignReviewerFailure
          (.errorString "NOT_ASSIGNED: reviewer is not assigned to this PR")
        = (409, "NOT_ASSIGNED"))
    ∧ (∀ (pr : PullRequest) (rs : List User),
      db.pullRequests.find? (fun r => r.ID == p) = some pr → pr.Status ≠ "MERGED" →
      GetReviewersForPR B db p = .ok rs → (∃ r ∈ rs, r.ID = o) →
      B.candidatesForReassignment db o p = [] →
      ReassignReviewer L B prIDStr oldReviewerIDStr db
        = (.error (.errorString "NO_CANDIDATE: no active replacement candidate in team"), db)
      ∧ reassignReviewerFailure
          (.errorString "NO_CANDIDATE: no active replacement candidate in team")
        = (409, "NO_CANDIDATE")) := by
  refine ⟨?_, ?_, ?_, ?_⟩
  · intro habsent
    refine ⟨?_, by decide⟩
    simp [ReassignReviewer, hp, ho, GetPullRequest, hgetpr, habsent]
  · intro pr hfind hst
    refine ⟨?_, by decide⟩
    simp [ReassignReviewer, hp, ho, GetPullRequest, hgetpr, hfind, hst]
  · intro pr rs hfind hst hrs hnot
    refine ⟨?_, by decide⟩
    have hany : rs.any (fun r => r.ID == o) = false := by
      rw [Bool.eq_false_iff]
      intro h
      rw [List.any_eq_true] at h
      obtain ⟨r, hr, hro⟩ := h
      exact hnot r hr (by simpa using hro)
    simp [ReassignReviewer, hp, ho, GetPullRequest, hgetpr, hfind, hst, hrs, hany]
  · intro pr rs hfind hst hrs hin hempty
    refine ⟨?_, by decide⟩
    have hany : rs.any (fun r => r.ID == o) = true := by
      rw [List.any_eq_true]
      obtain ⟨r, hr, hro⟩ := hin
      exact ⟨r, hr, by simpa using hro⟩
    simp [ReassignReviewer, hp, ho, GetPullRequest, hgetpr, hfind, hst, hrs, hany,
      GetCandidatesForReassignment, hcand, hempty]

/-- Worked example for C7: reassigning user 4, who is not a reviewer of the merged
pull request 10, is rejected with `PR_MERGED`; on the open pull request it is
rejected with `NOT_ASSIGNED`. -/
theorem reassign_preconditions_witness :
    ReassignReviewer exLib (exBackend [] [exUser 4]) "10" "4" exDBMerged
        = (.error (.errorString "PR_MERGED: cannot reassign on merged PR"), exDBMerged)
    ∧ ReassignReviewer exLib (exBackend [] [exUser 4]) "10" "4" exDBOpen
        = (.error (.errorString "NOT_ASSIGNED: reviewer is not assigned to this PR"), exDBOpen) :=
  ⟨((reassign_preconditions exLib (exBackend [] [exUser 4]) "10" "4" exDBMerged 10 4
        rfl rfl rfl rfl).2.1
        { openPullRequest 7 10 "pr-1" 1 with Status := "MERGED", UpdatedAt := 20 }
        (by decide) (by decide)).1,
   ((reassign_preconditions exLib (exBackend [] [exUser 4]) "10" "4" exDBOpen 10 4
        rfl rfl rfl rfl).2.2.1 (openPullRequest 7 10 "pr-1" 1) [exUser 2, exUser 3]
        (by decide) (by decide) (by decide) (by decide)).1⟩

/-- C9, the code at a failing input: pull request 10 has reviewers 2 and 3, the
candidate is user 4, and the insert of `(10, 4)` loses its connection after the
delete of `(10, 2)` went through. The call returns the error and the pull
request is left with the single reviewer 3. -/
theorem reassign_failed_add_drops_reviewer :
    ReassignReviewer exLib (exFailingBackend (.AddReviewerToPR 10 4) [] [exUser 4]) "10" "2"
        exDBOpen
      = (.error (.errorString "connection lost"), { exDBOpen with prReviewers := [(10, 3)] })
    ∧ assignedIDs exDBOpen 10 = [2, 3]
    ∧ assignedIDs (ReassignReviewer exLib
        (exFailingBackend (.AddReviewerToPR 10 4) [] [exUser 4]) "10" "2" exDBOpen).2 10 = [3] := by
  decide

/-! ## MERGED is terminal -/

theorem Keeps.refl (p : UUID) (db : DB) : Keeps p db db := ⟨rfl, rfl⟩

theorem Keeps.trans {p : UUID} {db db1 db2 : DB} (h1 : Keeps p db db1) (h2 : Keeps p db1 db2) :
    Keeps p db db2 := ⟨h2.1.trans h1.1, h2.2.trans h1.2⟩

theorem find?_map_update_ne (id p : UUID) (f : PullRequest → PullRequest)
    (hf : ∀ r, (f r).ID = r.ID) (hne : p ≠ id) (l : List PullRequest) :
    (l.map (fun x => if x.ID == id then f x else x)).find? (fun r => r.ID == p)
      = l.find? (fun r => r.ID == p) := by
  induction l with
  | nil => rfl
  | cons x xs ih =>
    by_cases hxp : x.ID = p
    · have hxi : (x.ID == id) = false := by simp [hxp, hne]
      have hxb : (x.ID == p) = true := by simp [hxp]
      simp only [List.map_cons, List.find?_cons, hxi]
      simp [hxb]
    · have h1 : (x.ID == p) = false := by simpa using hxp
      have h2 : ((if (x.ID == id) = true then f x else x).ID == p) = false := by
        split <;> simp [hf, hxp]
      simp only [List.map_cons, List.find?_cons, h1, h2, ih]

theorem AddReviewerToPR_keeps (B : Backend) (db : DB) (prID userID p : UUID) (hne : p ≠ prID) :
    Keeps p db (AddReviewerToPR B db prID userID).2 := by
  cases h : AddReviewerToPR B db prID userID with
  | mk r db1 =>
    cases r with
    | error e =>
      rw [AddReviewerToPR_error_state B db db1 prID userID e h]
      exact Keeps.refl p db
    | ok v =>
      rw [AddReviewerToPR_ok_state B db db1 prID userID v h]
      refine ⟨rfl, ?_⟩
      have : (prID == p) = false := by simpa using fun h => hne h.symm
      simp [assignedIDs, List.filter_append, this]

theorem assignLoop_keeps (L : Lib) (B : Backend) (prID p : UUID) (hne : p ≠ prID) :
    ∀ (cs : List User) (i : Nat) (assigned : List String) (db : DB),
      Keeps p db (assignLoop L B prID i cs assigned db).2 := by
  intro cs
  induction cs with
  | nil => intro i assigned db; exact Keeps.refl p db
  | cons c cs ih =>
    intro i assigned db
    rw [assignLoop]
    by_cases hi : i ≥ 2
    · simp only [hi, if_true]; exact Keeps.refl p db
    · simp only [hi, if_false]
      have hk := AddReviewerToPR_keeps B db prID c.ID p hne
      cases h : AddReviewerToPR B db prID c.ID with
      | mk r db1 =>
        rw [h] at hk
        cases r with
        | error e => exact hk
        | ok v => exact hk.trans (ih (i + 1) _ db1)

theorem GetPullRequest_ok_find (B : Backend) (db : DB) (id : UUID) (r : PullRequest)
    (h : GetPullRequest B db id = .ok r) :
    db.pullRequests.find? (fun x => x.ID == id) = some r := by
  unfold GetPullRequest at h
  split at h
  · simp at h
  · split at h
    · next r1 hr1 => rw [hr1]; simpa using h
    · simp at h

theorem CreatePullRequestWithID_error_state (B : Backend) (now : Time) (db db1 : DB)
    (id : UUID) (title : String) (authorID : UUID) (e : GoError)
    (h : CreatePullRequestWithID B now db id title authorID = (.error e, db1)) : db1 = db := by
  unfold CreatePullRequestWithID at h
  split at h
  · simp only [Prod.mk.injEq] at h; exact h.2.symm
  · split at h
    · simp only [Prod.mk.injEq] at h; exact h.2.symm
    · split at h
      · simp only [Prod.mk.injEq] at h; exact h.2.symm
      · simp at h

theorem CreatePullRequestWithID_ok_new (B : Backend) (now : Time) (db db1 : DB) (id : UUID)
    (title : String) (authorID : UUID) (pr : PullRequest)
    (h : CreatePullRequestWithID B now db id title authorID = (.ok pr, db1)) :
    db.pullRequests.any (fun r => r.ID == id) = false := by
  unfold CreatePullRequestWithID at h
  split at h
  · simp at h
  · split at h
    · simp at h
    · next hany => simpa using hany

theorem createPullRequestTx_keeps (L : Lib) (B : Backend) (now : Time)
    (prID title authorIDStr : String) (db : DB) (p : UUID) (pr : PullRequest)
    (hfind : db.pullRequests.find? (fun r => r.ID == p) = some pr) :
    Keeps p db (createPullRequestTx L B now prID title authorIDStr db).2 := by
  cases hp : L.uuidParse prID with
  | error e => simp only [createPullRequestTx, hp]; exact Keeps.refl p db
  | ok prUUID =>
    cases ha : L.uuidParse authorIDStr with
    | error e => simp only [createPullRequestTx, hp, ha]; exact Keeps.refl p db
    | ok authorID =>
      cases hg : GetPullRequest B db prUUID with
      | ok _ => simp only [createPullRequestTx, hp, ha, hg]; exact Keeps.refl p db
      | error _ =>
        cases hu : GetUser B db authorID with
        | error _ => simp only [createPullRequestTx, hp, ha, hg, hu]; exact Keeps.refl p db
        | ok _ =>
          cases hc : CreatePullRequestWithID B now db prUUID title authorID with
          | mk r db1 =>
            cases r with
            | error e =>
              simp only [createPullRequestTx, hp, ha, hg, hu, hc]
              rw [CreatePullRequestWithID_error_state B now db db1 prUUID title authorID e hc]
              exact Keeps.refl p db
            | ok row =>
              have hnew := CreatePullRequestWithID_ok_new B now db db1 prUUID title authorID row hc
              obtain ⟨hrow, hdb1⟩ :=
                CreatePullRequestWithID_ok_state B now db db1 prUUID title authorID row hc
              have hne : p ≠ prUUID := by
                intro heq
                subst heq
                rw [find?_some_any_true _ _ _ hfind] at hnew
                exact Bool.noConfusion hnew
              have hk1 : Keeps p db db1 := by
                subst hdb1
                refine ⟨?_, rfl⟩
                simp [List.find?_append, hfind]
              have hid : row.ID = prUUID := by rw [hrow]; rfl
              have hk2 := assignLoop_keeps L B prUUID p hne
                (candidatesOrEmpty B db1 authorID) 0 [] db1
              simp only [createPullRequestTx, hp, ha, hg, hu, hc, hid]
              cases hl : assignLoop L B prUUID 0 (candidatesOrEmpty B db1 authorID) [] db1 with
              | mk r2 db2 =>
                rw [hl] at hk2
                cases r2 with
                | error e => exact hk1.trans hk2
                | ok v => exact hk1.trans hk2

theorem ExecTx_db {α : Type} (B : Backend) (q : DBTX) (fn : DB → Except GoError α × DB)
    (db : DB) : (ExecTx B q fn db).db = db ∨ (ExecTx B q fn db).db = (fn db).2 := by
  unfold ExecTx
  cases q with
  | tx => exact Or.inr rfl
  | other => exact Or.inl rfl
  | pool =>
    cases hb : B.fault db .Begin with
    | some err => exact Or.inl rfl
    | none =>
      cases hfn : fn db with
      | mk r txdb =>
        cases r with
        | error err => cases hr : B.fault txdb .Rollback <;> simp [hr]
        | ok a => cases hc : B.fault txdb .Commit <;> simp [hc]

theorem CreatePullRequest_keeps (L : Lib) (B : Backend) (q : DBTX) (now : Time)
    (prID title authorIDStr : String) (db : DB) (p : UUID) (pr : PullRequest)
    (hfind : db.pullRequests.find? (fun r => r.ID == p) = some pr) :
    Keeps p db (CreatePullRequest L B q now prID title authorIDStr db).2 := by
  have h2 : (CreatePullRequest L B q now prID title authorIDStr db).2
      = (ExecTx B q (createPullRequestTx L B now prID title authorIDStr) db).db := by
    unfold CreatePullRequest
    simp only
    split <;> rfl
  rw [h2]
  rcases ExecTx_db B q (createPullRequestTx L B now prID title authorIDStr) db with h | h
  · rw [h]; exact Keeps.refl p db
  · rw [h]; exact createPullRequestTx_keeps L B now prID title authorIDStr db p pr hfind

theorem UpdatePullRequestStatus_keeps (B : Backend) (now : Time) (db : DB) (id : UUID)
    (status : String) (p : UUID) (hne : p ≠ id) :
    Keeps p db (UpdatePullRequestStatus B now db id status).2 := by
  unfold UpdatePullRequestStatus
  split
  · exact Keeps.refl p db
  · split
    · exact Keeps.refl p db
    · exact ⟨find?_map_update_ne id p
        (fun x => { x with Status := status, UpdatedAt := now }) (fun _ => rfl) hne _, rfl⟩

theorem RemoveReviewerFromPR_keeps (B : Backend) (db : DB) (prID userID p : UUID)
    (hne : p ≠ prID) : Keeps p db (RemoveReviewerFromPR B db prID userID).2 := by
  unfold RemoveReviewerFromPR
  split
  · exact Keeps.refl p db
  · refine ⟨rfl, ?_⟩
    simp only [assignedIDs, List.filter_filter]
    congr 1
    apply List.filter_congr
    intro a _
    by_cases ha : a.1 = p
    · have : ¬ a = (prID, userID) := fun h => hne (by rw [← ha, h])
      simp [ha, this]
    · simp [ha]

theorem UpdatePRStatusToMerged_keeps (L : Lib) (B : Backend) (now : Time) (prIDStr : String)
    (db : DB) (p : UUID) (pr : PullRequest)
    (hfind : db.pullRequests.find? (fun r => r.ID == p) = some pr)
    (hst : pr.Status = "MERGED") :
    Keeps p db (UpdatePRStatusToMerged L B now prIDStr db).2 := by
  cases hp : L.uuidParse prIDStr with
  | error e => simp only [UpdatePRStatusToMerged, hp]; exact Keeps.refl p db
  | ok prID =>
    cases hg : GetPullRequest B db prID with
    | error _ => simp only [UpdatePRStatusToMerged, hp, hg]; exact Keeps.refl p db
    | ok existingPR =>
      by_cases hm : existingPR.Status = "MERGED"
      · simp only [UpdatePRStatusToMerged, hp, hg, hm, if_true]; exact Keeps.refl p db
      · have hne : p ≠ prID := by
          intro heq
          subst heq
          have := GetPullRequest_ok_find B db p existingPR hg
          rw [hfind] at this
          exact hm ((Option.some.inj this) ▸ hst)
        have hk := UpdatePullRequestStatus_keeps B now db prID "MERGED" p hne
        simp only [UpdatePRStatusToMerged, hp, hg, hm, if_false]
        cases hu : UpdatePullRequestStatus B now db prID "MERGED" with
        | mk r db1 =>
          rw [hu] at hk
          cases r with
          | error e => exact hk
          | ok v => exact hk

theorem ReassignReviewer_keeps (L : Lib) (B : Backend) (prIDStr oldReviewerIDStr : String)
    (db : DB) (p : UUID) (pr : PullRequest)
    (hfind : db.pullRequests.find? (fun r => r.ID == p) = some pr)
    (hst : pr.Status = "MERGED") :
    Keeps p db (ReassignReviewer L B prIDStr oldReviewerIDStr db).2 := by
  cases hp : L.uuidParse prIDStr with
  | error e => simp only [ReassignReviewer, hp]; exact Keeps.refl p db
  | ok prID =>
    cases ho : L.uuidParse oldReviewerIDStr with
    | error e => simp only [ReassignReviewer, hp, ho]; exact Keeps.refl p db
    | ok oldReviewerID =>
      cases hg : GetPullRequest B db prID with
      | error _ => simp only [ReassignReviewer, hp, ho, hg]; exact Keeps.refl p db
      | ok existingPR =>
        by_cases hm : existingPR.Status = "MERGED"
        · simp only [ReassignReviewer, hp, ho, hg, hm, if_true]; exact Keeps.refl p db
        · have hne : p ≠ prID := by
            intro heq
            subst heq
            have := GetPullRequest_ok_find B db p existingPR hg
            rw [hfind] at this
            exact hm ((Option.some.inj this) ▸ hst)
          cases hr : GetReviewersForPR B db prID with
          | error _ => simp only [ReassignReviewer, hp, ho, hg, hm, hr, if_false]; exact Keeps.refl p db
          | ok reviewers =>
            cases hany : reviewers.any (fun r => r.ID == oldReviewerID) with
            | false =>
              simp [ReassignReviewer, hp, ho, hg, hm, hr, hany]
              exact Keeps.refl p db
            | true =>
              cases hc : GetCandidatesForReassignment B db oldReviewerID prID with
              | error _ =>
                simp [ReassignReviewer, hp, ho, hg, hm, hr, hany, hc]
                exact Keeps.refl p db
              | ok cs =>
                cases cs with
                | nil =>
                  simp [ReassignReviewer, hp, ho, hg, hm, hr, hany, hc]
                  exact Keeps.refl p db
                | cons newReviewer rest =>
                  have hk1 := RemoveReviewerFromPR_keeps B db prID oldReviewerID p hne
                  cases hrem : RemoveReviewerFromPR B db prID oldReviewerID with
                  | mk r1 db1 =>
                    rw [hrem] at hk1
                    cases r1 with
                    | error e =>
                      simp [ReassignReviewer, hp, ho, hg, hm, hr, hany, hc, hrem]
                      exact hk1
                    | ok v1 =>
                      have hk2 := AddReviewerToPR_keeps B db1 prID newReviewer.ID p hne
                      cases hadd : AddReviewerToPR B db1 prID newReviewer.ID with
                      | mk r2 db2 =>
                        rw [hadd] at hk2
                        have hk := hk1.trans hk2
                        cases r2 with
                        | error e =>
                          simp [ReassignReviewer, hp, ho, hg, hm, hr, hany, hc, hrem, hadd]
                          exact hk
                        | ok v2 =>
                          cases hg2 : GetPullRequest B db2 prID with
                          | error e =>
                            simp [ReassignReviewer, hp, ho, hg, hm, hr, hany, hc, hrem, hadd, hg2]
                            exact hk
                          | ok updatedPR =>
                            simp [ReassignReviewer, hp, ho, hg, hm, hr, hany, hc, hrem, hadd, hg2]
                            exact hk

theorem applyOp_keeps (L : Lib) (B : Backend) (q : DBTX) (op : Op) (db : DB) (p : UUID)
    (pr : PullRequest) (hfind : db.pullRequests.find? (fun r => r.ID == p) = some pr)
    (hst : pr.Status = "MERGED") : Keeps p db (applyOp L B q op db) := by
  cases op with
  | create now prID title authorIDStr =>
    exact CreatePullRequest_keeps L B q now prID title authorIDStr db p pr hfind
  | merge now prIDStr => exact UpdatePRStatusToMerged_keeps L B now prIDStr db p pr hfind hst
  | reassign prIDStr oldReviewerIDStr =>
    exact ReassignReviewer_keeps L B prIDStr oldReviewerIDStr db p pr hfind hst

theorem runOps_keeps (L : Lib) (B : Backend) (q : DBTX) (p : UUID) (pr : PullRequest)
    (hst : pr.Status = "MERGED") :
    ∀ (ops : List Op) (db : DB), db.pullRequests.find? (fun r => r.ID == p) = some pr →
      Keeps p db (runOps L B q ops db) := by
  intro ops
  induction ops with
  | nil => intro db _; exact Keeps.refl p db
  | cons op ops ih =>
    intro db hfind
    have h1 := applyOp_keeps L B q op db p pr hfind hst
    have h2 := ih (applyOp L B q op db) (h1.1.trans hfind)
    exact h1.trans h2

/-- C10. `MERGED` is terminal. If pull request `p` has status `MERGED`, then after
any sequence of `CreatePullRequest`, `UpdatePRStatusToMerged` and
`ReassignReviewer` calls, with any arguments and whichever store calls fail, its
row (status and update timestamp included) and its assignment rows are what they
were. With a working lookup, a further merge of `p` succeeds without touching
the database, a reassignment on `p` is rejected with `PR_MERGED`, and a create
with the id of `p` is rejected with `PR_EXISTS`. -/
theorem merged_is_terminal (L : Lib) (B : Backend) (q : DBTX) (ops : List Op) (db : DB)
    (p : UUID) (pr : PullRequest)
    (hfind : db.pullRequests.find? (fun r => r.ID == p) = some pr)
    (hst : pr.Status = "MERGED") :
    (runOps L B q ops db).pullRequests.find? (fun r => r.ID == p) = some pr
    ∧ assignedIDs (runOps L B q ops db) p = assignedIDs db p
    ∧ (∀ (prIDStr : String), L.uuidParse prIDStr = .ok p →
        B.fault db (.GetPullRequest p) = none →
        (∀ now, ∃ d : PRDetails, UpdatePRStatusToMerged L B now prIDStr db = (.ok d, db)
            ∧ d.MergedAt = some (L.timeFormat pr.UpdatedAt))
        ∧ (∀ (oldStr : String) (o : UUID), L.uuidParse oldStr = .ok o →
            ReassignReviewer L B prIDStr oldStr db
              = (.error (.errorString "PR_MERGED: cannot reassign on merged PR"), db))
        ∧ (∀ (now : Time) (title authorIDStr : String) (a : UUID),
            L.uuidParse authorIDStr = .ok a → q ≠ .other →
            B.fault db .Begin = none → B.fault db .Rollback = none →
            CreatePullRequest L B q now prIDStr title authorIDStr db
              = (.error (.errorString "PR_EXISTS"), db))) := by
  have hk := runOps_keeps L B q p pr hst ops db hfind
  refine ⟨hk.1.trans hfind, hk.2, ?_⟩
  intro prIDStr hp hget
  refine ⟨?_, ?_, ?_⟩
  · intro now
    have hcall : UpdatePRStatusToMerged L B now prIDStr db
        = (.ok (mergedDetails L pr (reviewersIgnoringError B db p)), db) := by
      simp [UpdatePRStatusToMerged, hp, GetPullRequest, hget, hfind, hst, mergedDetails]
    exact ⟨_, hcall, rfl⟩
  · intro oldStr o ho
    simp [ReassignReviewer, hp, ho, GetPullRequest, hget, hfind, hst]
  · intro now title authorIDStr a ha hq hbegin hrollback
    have htx : createPullRequestTx L B now prIDStr title authorIDStr db
        = (.error (.errorString "PR_EXISTS"), db) := by
      simp [createPullRequestTx, hp, ha, GetPullRequest, hget, hfind]
    cases q with
    | other => exact absurd rfl hq
    | tx => simp [CreatePullRequest, ExecTx, htx]
    | pool => simp [CreatePullRequest, ExecTx, htx, hbegin, hrollback]

/-- Worked example for C10: on the merged pull request 10, a create with id 10, a
merge, a reassignment of reviewer 2 and the creation of pull request 11 leave
the row of 10 (status `MERGED`, updated at 20) and its reviewers 2 and 3. -/
theorem merged_is_terminal_witness :
    (runOps exLib (exBackend [exUser 2] [exUser 4]) .pool
        [.create 30 "10" "again" "1", .merge 40 "10", .reassign "10" "2",
         .create 50 "11" "pr-2" "1"] exDBMerged).pullRequests.find? (fun r => r.ID == 10)
      = some { openPullRequest 7 10 "pr-1" 1 with Status := "MERGED", UpdatedAt := 20 }
    ∧ assignedIDs (runOps exLib (exBackend [exUser 2] [exUser 4]) .pool
        [.create 30 "10" "again" "1", .merge 40 "10", .reassign "10" "2",
         .create 50 "11" "pr-2" "1"] exDBMerged) 10 = [2, 3] :=
  have h := merged_is_terminal exLib (exBackend [exUser 2] [exUser 4]) .pool
    [.create 30 "10" "again" "1", .merge 40 "10", .reassign "10" "2",
     .create 50 "11" "pr-2" "1"] exDBMerged 10
    { openPullRequest 7 10 "pr-1" 1 with Status := "MERGED", UpdatedAt := 20 }
    (by decide) (by decide)
  ⟨h.1, h.2.1.trans (by decide)⟩

/-! ## Successful reassignment -/

theorem map_ID_filterMap_find (users : List User) (ids : List UUID) :
    (ids.filterMap (fun uid => users.find? (fun u => u.ID == uid))).map (fun u => u.ID)
      = ids.filter (fun uid => users.any (fun u => u.ID == uid)) := by
  induction ids with
  | nil => rfl
  | cons uid ids ih =>
    cases h : users.find? (fun u => u.ID == uid) with
    | none =>
      have := find?_none_any_false _ _ h
      simp [List.filterMap_cons, h, this, ih]
    | some u =>
      have hany := find?_some_any_true _ _ _ h
      have hid : u.ID = uid := by simpa using List.find?_some h
      simp [List.filterMap_cons, h, hany, ih, hid]

theorem assignedIDs_remove (db : DB) (p o : UUID) :
    assignedIDs { db with prReviewers := db.prReviewers.filter (fun a => !(a == (p, o))) } p
      = (assignedIDs db p).filter (fun x => x != o) := by
  simp only [assignedIDs]
  induction db.prReviewers with
  | nil => rfl
  | cons a l ih =>
    obtain ⟨a1, a2⟩ := a
    by_cases h1 : a1 = p
    · by_cases h2 : a2 = o
      · subst h1 h2
        simpa [List.filter_cons] using ih
      · subst h1
        simpa [List.filter_cons, h2] using ih
    · simpa [List.filter_cons, h1] using ih

theorem length_filter_ne_of_nodup (l : List UUID) (a : UUID) (hnd : l.Nodup) (ha : a ∈ l) :
    (l.filter (fun x => x != a)).length + 1 = l.length := by
  rw [← List.Nodup.erase_eq_filter hnd a, List.length_erase_of_mem ha]
  have : 0 < l.length := List.length_pos_of_mem ha
  omega

theorem RemoveReviewerFromPR_ok_state (B : Backend) (db db1 : DB) (prID userID : UUID) (u : Unit)
    (h : RemoveReviewerFromPR B db prID userID = (.ok u, db1)) :
    db1 = { db with prReviewers := db.prReviewers.filter (fun a => !(a == (prID, userID))) } := by
  unfold RemoveReviewerFromPR at h
  split at h
  · simp at h
  · simp only [Prod.mk.injEq] at h
    exact h.2.symm

theorem AddReviewerToPR_ok_user (B : Backend) (db db1 : DB) (prID userID : UUID) (u : Unit)
    (h : AddReviewerToPR B db prID userID = (.ok u, db1)) :
    db.users.any (fun x => x.ID == userID) = true := by
  unfold AddReviewerToPR at h
  split at h
  · simp at h
  · split at h
    · simp at h
    · split at h
      · simp at h
      · next hu => simpa using hu

/-- What a successful `ReassignReviewer` call went through. -/
theorem ReassignReviewer_ok_inv (L : Lib) (B : Backend) (prIDStr oldReviewerIDStr : String)
    (db db2 : DB) (p o : UUID) (d : PRDetails)
    (hp : L.uuidParse prIDStr = .ok p) (ho : L.uuidParse oldReviewerIDStr = .ok o)
    (hok : ReassignReviewer L B prIDStr oldReviewerIDStr db = (.ok d, db2)) :
    ∃ (rs : List User) (c0 : User) (rest : List User) (db1 : DB) (v1 v2 : Unit),
      GetReviewersForPR B db p = .ok rs
      ∧ rs.any (fun r => r.ID == o) = true
      ∧ GetCandidatesForReassignment B db o p = .ok (c0 :: rest)
      ∧ RemoveReviewerFromPR B db p o = (.ok v1, db1)
      ∧ AddReviewerToPR B db1 p c0.ID = (.ok v2, db2)
      ∧ d.AssignedReviewers = (reviewersIgnoringError B db2 p).map (fun r => L.uuidString r.ID)
      ∧ d.ReplacedBy = L.uuidString c0.ID := by
  cases hg : GetPullRequest B db p with
  | error _ => simp [ReassignReviewer, hp, ho, hg] at hok
  | ok existingPR =>
    by_cases hm : existingPR.Status = "MERGED"
    · simp [ReassignReviewer, hp, ho, hg, hm] at hok
    · cases hr : GetReviewersForPR B db p with
      | error _ => simp [ReassignReviewer, hp, ho, hg, hm, hr] at hok
      | ok reviewers =>
        cases hany : reviewers.any (fun r => r.ID == o) with
        | false => simp [ReassignReviewer, hp, ho, hg, hm, hr, hany] at hok
        | true =>
          cases hc : GetCandidatesForReassignment B db o p with
          | error _ => simp [ReassignReviewer, hp, ho, hg, hm, hr, hany, hc] at hok
          | ok cs =>
            cases cs with
            | nil => simp [ReassignReviewer, hp, ho, hg, hm, hr, hany, hc] at hok
            | cons newReviewer rest =>
              cases hrem : RemoveReviewerFromPR B db p o with
              | mk r1 db1 =>
                cases r1 with
                | error e => simp [ReassignReviewer, hp, ho, hg, hm, hr, hany, hc, hrem] at hok
                | ok v1 =>
                  cases hadd : AddReviewerToPR B db1 p newReviewer.ID with
                  | mk r2 db2' =>
                    cases r2 with
                    | error e =>
                      simp [ReassignReviewer, hp, ho, hg, hm, hr, hany, hc, hrem, hadd] at hok
                    | ok v2 =>
                      cases hg2 : GetPullRequest B db2' p with
                      | error e =>
                        simp [ReassignReviewer, hp, ho, hg, hm, hr, hany, hc, hrem, hadd, hg2]
                          at hok
                      | ok updatedPR =>
                        simp [ReassignReviewer, hp, ho, hg, hm, hr, hany, hc, hrem, hadd, hg2]
                          at hok
                        obtain ⟨hd, hdb⟩ := hok
                        subst hdb
                        refine ⟨reviewers, newReviewer, rest, db1, v1, v2, rfl, hany, rfl, rfl,
                          hadd, ?_, ?_⟩
                        · rw [← hd]
                        · rw [← hd]

/-- C8. Let a `ReassignReviewer` call with well-formed ids succeed, on a state
where the pull request has no duplicate assignment row, with `rs` its reviewers
before the call and `c` the candidate list, no candidate being among `rs`, and
let the reviewer lookup after the change work. Then `c` is not empty, its head
`c0` is reported as `ReplacedBy`, and the reviewers after the call, which are
the returned list, are the previous ones without the old reviewer followed by
`c0`: the old reviewer is gone, `c0` is there, the count is unchanged. -/
theorem reassign_replaces_old_with_first_candidate (L : Lib) (B : Backend)
    (prIDStr oldReviewerIDStr : String) (db db2 : DB) (p o : UUID) (d : PRDetails)
    (rs c : List User)
    (hp : L.uuidParse prIDStr = .ok p) (ho : L.uuidParse oldReviewerIDStr = .ok o)
    (hok : ReassignReviewer L B prIDStr oldReviewerIDStr db = (.ok d, db2))
    (hrs : GetReviewersForPR B db p = .ok rs)
    (hc : GetCandidatesForReassignment B db o p = .ok c)
    (hdisj : ∀ u ∈ c, ∀ r ∈ rs, u.ID ≠ r.ID)
    (hnodup : (assignedIDs db p).Nodup)
    (hlist : B.fault db2 (.GetReviewersForPR p) = none) :
    ∃ (c0 : User) (rest rs2 : List User),
      c = c0 :: rest
      ∧ d.ReplacedBy = L.uuidString c0.ID
      ∧ GetReviewersForPR B db2 p = .ok rs2
      ∧ d.AssignedReviewers = rs2.map (fun r => L.uuidString r.ID)
      ∧ rs2.map (fun r => r.ID) = (rs.map (fun r => r.ID)).filter (fun x => x != o) ++ [c0.ID]
      ∧ o ∉ rs2.map (fun r => r.ID)
      ∧ c0.ID ∈ rs2.map (fun r => r.ID)
      ∧ rs2.length = rs.length
      ∧ assignedIDs db2 p = (assignedIDs db p).filter (fun x => x != o) ++ [c0.ID] := by
  obtain ⟨rs0, c0, rest, db1, v1, v2, hrs0, hany, hc0, hrem, hadd, hd, hrep⟩ :=
    ReassignReviewer_ok_inv L B prIDStr oldReviewerIDStr db db2 p o d hp ho hok
  rw [hrs] at hrs0
  have hrseq : rs = rs0 := Except.ok.inj hrs0
  subst hrseq
  rw [hc] at hc0
  have hceq : c = c0 :: rest := Except.ok.inj hc0
  -- the states after the delete and after the insert
  have hdb1 := RemoveReviewerFromPR_ok_state B db db1 p o v1 hrem
  have huser := AddReviewerToPR_ok_user B db1 db2 p c0.ID v2 hadd
  have hdb2 := AddReviewerToPR_ok_state B db1 db2 p c0.ID v2 hadd
  subst hdb1
  subst hdb2
  -- the old reviewer is among the previous reviewers, the replacement is not the old one
  obtain ⟨r, hr, hro⟩ := List.any_eq_true.mp hany
  have hro : r.ID = o := by simpa using hro
  have hne : c0.ID ≠ o := by
    rw [← hro]
    exact hdisj c0 (by rw [hceq]; exact List.mem_cons_self _ _) r hr
  -- assignment rows after the call
  have hids : assignedIDs
      { db with prReviewers :=
          db.prReviewers.filter (fun a => !(a == (p, o))) ++ [(p, c0.ID)] } p
      = (assignedIDs db p).filter (fun x => x != o) ++ [c0.ID] := by
    have h1 := assignedIDs_remove db p o
    simp only [assignedIDs] at h1 ⊢
    rw [List.filter_append, List.map_append, h1]
    simp
  -- reviewers before the call, as ids
  have hrsids : rs.map (fun r => r.ID)
      = (assignedIDs db p).filter (fun uid => db.users.any (fun u => u.ID == uid)) := by
    unfold GetReviewersForPR at hrs
    split at hrs
    · simp at hrs
    · rw [← Except.ok.inj hrs]
      exact map_ID_filterMap_find db.users (assignedIDs db p)
  -- reviewers after the call
  have hget2 : GetReviewersForPR B
      { db with prReviewers :=
          db.prReviewers.filter (fun a => !(a == (p, o))) ++ [(p, c0.ID)] } p
      = .ok (((assignedIDs db p).filter (fun x => x != o) ++ [c0.ID]).filterMap
          (fun uid => db.users.find? (fun u => u.ID == uid))) := by
    simp only [GetReviewersForPR, hlist, hids]
  have hrs2ids : (((assignedIDs db p).filter (fun x => x != o) ++ [c0.ID]).filterMap
        (fun uid => db.users.find? (fun u => u.ID == uid))).map (fun r => r.ID)
      = (rs.map (fun r => r.ID)).filter (fun x => x != o) ++ [c0.ID] := by
    have huser2 : db.users.any (fun x => x.ID == c0.ID) = true := huser
    rw [map_ID_filterMap_find, hrsids, List.filter_append, List.filter_filter, List.filter_filter]
    congr 1
    · apply List.filter_congr
      intro x _
      exact Bool.and_comm _ _
    · simp [huser2]
  have hmem_o : o ∈ rs.map (fun r => r.ID) := List.mem_map.mpr ⟨r, hr, hro⟩
  have hnd : (rs.map (fun r => r.ID)).Nodup := by
    rw [hrsids]; exact hnodup.filter _
  refine ⟨c0, rest, _, hceq, hrep, hget2, ?_, hrs2ids, ?_, ?_, ?_, hids⟩
  · rw [hd]
    simp only [reviewersIgnoringError, hget2]
  · rw [hrs2ids]
    intro hmem
    rcases List.mem_append.mp hmem with h | h
    · have := (List.mem_filter.mp h).2
      simp at this
    · have hco : o = c0.ID := by simpa using h
      exact hne hco.symm
  · rw [hrs2ids]
    exact List.mem_append_right _ (List.mem_singleton_self _)
  · have hlen := congrArg List.length hrs2ids
    simp only [List.length_map, List.length_append, List.length_singleton] at hlen
    have := length_filter_ne_of_nodup _ o hnd hmem_o
    simp only [List.length_map] at this
    omega

/-- Worked example for C8: on the open pull request 10 with reviewers 2 and 3,
reviewer 2 is replaced by candidate 4; the reviewers are then 3 and 4. -/
theorem reassign_replaces_old_with_first_candidate_witness :
    ∃ (d : PRDetails) (db2 : DB),
      ReassignReviewer exLib (exBackend [] [exUser 4]) "10" "2" exDBOpen = (.ok d, db2)
      ∧ d.ReplacedBy = "4"
      ∧ assignedIDs db2 10 = [3, 4] := by
  have hrun : ReassignReviewer exLib (exBackend [] [exUser 4]) "10" "2" exDBOpen
      = ((ReassignReviewer exLib (exBackend [] [exUser 4]) "10" "2" exDBOpen).1.toOption.getD
          (mergedDetails exLib (openPullRequest 0 0 "" 0) []),
         (ReassignReviewer exLib (exBackend [] [exUser 4]) "10" "2" exDBOpen).2).map .ok id := by
    decide
  obtain ⟨c0, rest, rs2, hc, hrep, _, _, _, _, _, _, hids⟩ :=
    reassign_replaces_old_with_first_candidate exLib (exBackend [] [exUser 4]) "10" "2"
      exDBOpen _ 10 2 _ [exUser 2, exUser 3] [exUser 4] rfl rfl hrun (by decide) rfl
      (by decide) (by decide) rfl
  have hc0 : c0 = exUser 4 := by
    have := List.cons.inj hc
    exact this.1.symm
  subst hc0
  exact ⟨_, _, hrun, hrep, hids.trans (by decide)⟩

/-! ## The transaction coordinator -/

/-- C13. On a pool, once the transaction is begun, a unit of work that fails with
`err` makes `ExecTx` issue a rollback and no commit and leave the visible state
as it was; when the rollback succeeds the result is exactly `err`, and when the
rollback fails with `rbErr` the result is an error whose `Unwrap` is `err` and
whose message is the message of `err` followed by `; rollback error: ` and the
message of `rbErr`. -/
theorem execTx_failure_rolls_back {α : Type} (B : Backend)
    (fn : DB → Except GoError α × DB) (db txdb : DB) (err : GoError)
    (hbegin : B.fault db .Begin = none)
    (hfn : fn db = (.error err, txdb)) :
    (ExecTx B .pool fn db).db = db
    ∧ (∀ ok, TxEvent.commit ok ∉ (ExecTx B .pool fn db).events)
    ∧ (∃ ok, (ExecTx B .pool fn db).events = [.begin true, .rollback ok])
    ∧ (B.fault txdb .Rollback = none →
        (ExecTx B .pool fn db).result = .error err
        ∧ (ExecTx B .pool fn db).events = [.begin true, .rollback true])
    ∧ (∀ rbErr, B.fault txdb .Rollback = some rbErr →
        (ExecTx B .pool fn db).result
          = .error (.wrapError (err.Error ++ "; rollback error: " ++ rbErr.Error) err)
        ∧ (GoError.wrapError (err.Error ++ "; rollback error: " ++ rbErr.Error) err).Unwrap
          = some err
        ∧ (GoError.wrapError (err.Error ++ "; rollback error: " ++ rbErr.Error) err).Error
          = err.Error ++ "; rollback error: " ++ rbErr.Error
        ∧ (ExecTx B .pool fn db).events = [.begin true, .rollback false]) := by
  cases hr : B.fault txdb .Rollback with
  | none =>
    have h : ExecTx B .pool fn db
        = { result := .error err, db := db, events := [.begin true, .rollback true] } := by
      simp [ExecTx, hbegin, hfn, hr]
    rw [h]
    refine ⟨rfl, ?_, ⟨true, rfl⟩, fun _ => ⟨rfl, rfl⟩, ?_⟩
    · intro ok hmem
      simp at hmem
    · intro rbErr hrb
      simp at hrb
  | some rb =>
    have h : ExecTx B .pool fn db
        = { result := .error (.wrapError (err.Error ++ "; rollback error: " ++ rb.Error) err),
            db := db, events := [.begin true, .rollback false] } := by
      simp [ExecTx, hbegin, hfn, hr]
    rw [h]
    refine ⟨rfl, ?_, ⟨false, rfl⟩, ?_, ?_⟩
    · intro ok hmem
      simp at hmem
    · intro hnone
      simp at hnone
    · intro rbErr hrb
      have : rb = rbErr := Option.some.inj hrb
      subst this
      exact ⟨rfl, rfl, rfl, rfl⟩

/-- Worked example for C13: a unit of work that fails with `boom` on a pool whose
rollback loses the connection; the result wraps `boom`, its message carries the
rollback error, and nothing is committed. -/
theorem execTx_failure_rolls_back_witness :
    (ExecTx (exFailingBackend .Rollback [] [])
        .pool (fun d => ((.error (.errorString "boom") : Except GoError Unit), d)) exDB).result
      = .error (.wrapError "boom; rollback error: connection lost" (.errorString "boom"))
    ∧ (ExecTx (exFailingBackend .Rollback [] [])
        .pool (fun d => ((.error (.errorString "boom") : Except GoError Unit), d)) exDB).db
      = exDB :=
  have h := execTx_failure_rolls_back (exFailingBackend .Rollback [] [])
    (fun d => ((.error (.errorString "boom") : Except GoError Unit), d)) exDB exDB
    (.errorString "boom") rfl rfl
  ⟨(h.2.2.2.2 (.errorString "connection lost") rfl).1, h.1⟩

/-- C17. On a `Queries` value bound to a transaction, `ExecTx` applies the unit of
work to the state of that transaction and returns its result and the state it
left, issuing no begin, commit or rollback. -/
theorem execTx_nested_reuses_transaction {α : Type} (B : Backend)
    (fn : DB → Except GoError α × DB) (db : DB) :
    (ExecTx B .tx fn db).result = (fn db).1
    ∧ (ExecTx B .tx fn db).db = (fn db).2
    ∧ (ExecTx B .tx fn db).events = [] :=
  ⟨rfl, rfl, rfl⟩

/-! ## Malformed ids -/

/-- C18. An id string `s` that `uuid.Parse` rejects makes `UpdatePRStatusToMerged`
and `ReassignReviewer` (as pull-request id, or as reviewer id next to a
well-formed pull-request id) and `CreatePullRequest` (as pull-request id, or as
author id next to a well-formed pull-request id) return the invalid-format
failure wrapping the parse error, with the database as it was and whatever the
backend would answer to a lookup or a mutation. `CreatePullRequest` parses
inside the unit of work: on a pool the transaction is begun first, and when the
rollback fails the failure returned wraps the invalid-format failure. -/
theorem malformed_ids_fail_fast (L : Lib) (B : Backend) (now : Time) (s t title : String)
    (db : DB) (e : GoError) (hbad : L.uuidParse s = .error e) :
    UpdatePRStatusToMerged L B now s db
      = (.error (.wrapError ("invalid pull_request_id format: " ++ e.Error) e), db)
    ∧ ReassignReviewer L B s t db
      = (.error (.wrapError ("invalid pull_request_id format: " ++ e.Error) e), db)
    ∧ (∀ p, L.uuidParse t = .ok p →
        ReassignReviewer L B t s db
          = (.error (.wrapError ("invalid user_id format: " ++ e.Error) e), db))
    ∧ CreatePullRequest L B .tx now s title t db
      = (.error (.wrapError ("invalid pull_request_id format: " ++ e.Error) e), db)
    ∧ (∀ p, L.uuidParse t = .ok p →
        CreatePullRequest L B .tx now t title s db
          = (.error (.wrapError ("invalid author_id format: " ++ e.Error) e), db))
    ∧ (B.fault db .Begin = none →
        (CreatePullRequest L B .pool now s title t db).2 = db
        ∧ ∃ e', (CreatePullRequest L B .pool now s title t db).1 = .error e'
          ∧ (B.fault db .Rollback = none →
              e' = .wrapError ("invalid pull_request_id format: " ++ e.Error) e)
          ∧ (e' = .wrapError ("invalid pull_request_id format: " ++ e.Error) e
              ∨ e'.Unwrap = some (.wrapError ("invalid pull_request_id format: " ++ e.Error) e)))
    ∧ (∀ p, L.uuidParse t = .ok p → B.fault db .Begin = none →
        (CreatePullRequest L B .pool now t title s db).2 = db
        ∧ ∃ e', (CreatePullRequest L B .pool now t title s db).1 = .error e'
          ∧ (B.fault db .Rollback = none →
              e' = .wrapError ("invalid author_id format: " ++ e.Error) e)
          ∧ (e' = .wrapError ("invalid author_id format: " ++ e.Error) e
              ∨ e'.Unwrap = some (.wrapError ("invalid author_id format: " ++ e.Error) e))) := by
  have htx1 : createPullRequestTx L B now s title t db
      = (.error (.wrapError ("invalid pull_request_id format: " ++ e.Error) e), db) := by
    simp [createPullRequestTx, hbad]
  have htx2 : ∀ p, L.uuidParse t = .ok p → createPullRequestTx L B now t title s db
      = (.error (.wrapError ("invalid author_id format: " ++ e.Error) e), db) := by
    intro p hp
    simp [createPullRequestTx, hbad, hp]
  refine ⟨?_, ?_, ?_, ?_, ?_, ?_, ?_⟩
  · simp [UpdatePRStatusToMerged, hbad]
  · simp [ReassignReviewer, hbad]
  · intro p hp
    simp [ReassignReviewer, hbad, hp]
  · simp [CreatePullRequest, ExecTx, htx1]
  · intro p hp
    simp [CreatePullRequest, ExecTx, htx2 p hp]
  · intro hbegin
    cases hr : B.fault db .Rollback with
    | none => simp [CreatePullRequest, ExecTx, htx1, hbegin, hr]
    | some rb => simp [CreatePullRequest, ExecTx, htx1, hbegin, hr, GoError.Unwrap]
  · intro p hp hbegin
    cases hr : B.fault db .Rollback with
    | none => simp [CreatePullRequest, ExecTx, htx2 p hp, hbegin, hr]
    | some rb => simp [CreatePullRequest, ExecTx, htx2 p hp, hbegin, hr, GoError.Unwrap]

/-- Worked example for C18: the id `zz` is rejected by the three operations and
the example state stays as it is. -/
theorem malformed_ids_fail_fast_witness :
    UpdatePRStatusToMerged exLib (exBackend [] []) 20 "zz" exDBOpen
      = (.error (.wrapError "invalid pull_request_id format: invalid UUID format"
          (.errorString "invalid UUID format")), exDBOpen)
    ∧ ReassignReviewer exLib (exBackend [] []) "10" "zz" exDBOpen
      = (.error (.wrapError "invalid user_id format: invalid UUID format"
          (.errorString "invalid UUID format")), exDBOpen)
    ∧ (CreatePullRequest exLib (exBackend [] []) .pool 20 "zz" "title" "1" exDBOpen).2
      = exDBOpen :=
  have h := malformed_ids_fail_fast exLib (exBackend [] []) 20 "zz" "10" "title" exDBOpen
    (.errorString "invalid UUID format") rfl
  have h1 := malformed_ids_fail_fast exLib (exBackend [] []) 20 "zz" "1" "title" exDBOpen
    (.errorString "invalid UUID format") rfl
  ⟨h.1, h.2.2.1 10 rfl, (h1.2.2.2.2.2.1 rfl).1⟩

/-! ## Teams and members -/

/-- C19, the code at a failing input: team `a` with the single member 1 is created
on the empty store and gets the id 100. The team reference the service builds
is not valid. The `UpsertUser` call it issues is the one with the reference
`(100, not valid)`: a backend failing exactly that call fails the operation, a
backend failing the call with the valid reference does not; the user is stored
with a NULL team. `GetTeamDetails` in turn issues `GetUsersByTeamID` with the
reference `(100, not valid)`. -/
theorem team_reference_is_not_valid :
    (teamReference 100).Valid = false
    ∧ (CreateTeamWithMembers exLib
        (exFailingBackend (.UpsertUser 1 "x" { Bytes := 100, Valid := false } true) [] [])
        "a" [exMember "1" "x"] emptyDB).1
      = .error (.wrapError "failed to upsert user x (1) for team a: connection lost"
          (.errorString "connection lost"))
    ∧ (CreateTeamWithMembers exLib
        (exFailingBackend (.UpsertUser 1 "x" { Bytes := 100, Valid := true } true) [] [])
        "a" [exMember "1" "x"] emptyDB).1
      = .ok { TeamName := "a", Members := [exMember "1" "x"] }
    ∧ (CreateTeamWithMembers exLib (exBackend [] []) "a" [exMember "1" "x"] emptyDB).2.users
      = [{ ID := 1, Name := "x", TeamID := PgUUID.null, IsActive := true }]
    ∧ GetTeamDetails exLib
        (exFailingBackend (.GetUsersByTeamID { Bytes := 100, Valid := false }) [] []) "a"
        (CreateTeamWithMembers exLib (exBackend [] []) "a" [exMember "1" "x"] emptyDB).2
      = .error (.errorString "connection lost")
    ∧ GetTeamDetails exLib
        (exFailingBackend (.GetUsersByTeamID { Bytes := 100, Valid := true }) [] []) "a"
        (CreateTeamWithMembers exLib (exBackend [] []) "a" [exMember "1" "x"] emptyDB).2
      = .ok { TeamName := "a", Members := [] } := by
  decide

/-- C12, the code at a failing input: team `a` with member 1 and team `b` with
member 2 are created on the empty store; both calls succeed and return their
members. `GetTeamDetails` of `a` then returns no member at all, because both
users are stored with a NULL team. Creating `a` again fails with the unique
violation the handler maps to `TEAM_EXISTS`, and leaves the state as it is. -/
theorem team_details_lose_members :
    (CreateTeamWithMembers exLib (exBackend [] []) "a" [exMember "1" "x"] emptyDB).1
      = .ok { TeamName := "a", Members := [exMember "1" "x"] }
    ∧ (CreateTeamWithMembers exLib (exBackend [] []) "b" [exMember "2" "y"]
        (CreateTeamWithMembers exLib (exBackend [] []) "a" [exMember "1" "x"] emptyDB).2).1
      = .ok { TeamName := "b", Members := [exMember "2" "y"] }
    ∧ GetTeamDetails exLib (exBackend [] []) "a"
        (CreateTeamWithMembers exLib (exBackend [] []) "b" [exMember "2" "y"]
          (CreateTeamWithMembers exLib (exBackend [] []) "a" [exMember "1" "x"] emptyDB).2).2
      = .ok { TeamName := "a", Members := [] }
    ∧ GetTeamDetails exLib (exBackend [] []) "a"
        (CreateTeamWithMembers exLib (exBackend [] []) "a" [exMember "1" "x"] emptyDB).2
      = .ok { TeamName := "a", Members := [] }
    ∧ CreateTeamWithMembers exLib (exBackend [] []) "a" [exMember "3" "z"]
        (CreateTeamWithMembers exLib (exBackend [] []) "a" [exMember "1" "x"] emptyDB).2
      = (.error (.pgError "23505" "violates constraint teams_name_key"),
         (CreateTeamWithMembers exLib (exBackend [] []) "a" [exMember "1" "x"] emptyDB).2)
    ∧ createTeamWithMembersFailure (.pgError "23505" "violates constraint teams_name_key")
      = (400, "TEAM_EXISTS") := by
  decide

/-- C15 as stated fails: `Service.CreateTeamWithMembers` is called on the empty
store for team `a` with the members `1` and `zz`, the second id malformed. The
call returns the invalid-format failure, and the store is left with the team
`a` and the user 1; with the malformed member alone, it is left with the team. -/
theorem malformed_member_after_mutation :
    CreateTeamWithMembers exLib (exBackend [] []) "a" [exMember "1" "x", exMember "zz" "y"]
        emptyDB
      = (.error (.wrapError "invalid UUID format for user zz: invalid UUID format"
          (.errorString "invalid UUID format")),
         { teams := [{ ID := 100, Name := "a" }]
           users := [{ ID := 1, Name := "x", TeamID := PgUUID.null, IsActive := true }]
           pullRequests := []
           prReviewers := [] })
    ∧ (CreateTeamWithMembers exLib (exBackend [] []) "a" [exMember "zz" "y"] emptyDB).2.teams
      = [{ ID := 100, Name := "a" }] := by
  decide

/-! ## Store errors -/

/-- C14 as stated fails: with a failing team lookup `SetUserActiveStatus` on user
1 of the example state succeeds, with an empty team name; with a failing
reviewer lookup the merge of pull request 10 succeeds and reports no reviewer
although 2 and 3 are assigned; and with the reviewer lookup failing after the
change, the reassignment of reviewer 2 succeeds and reports no reviewer although
3 and 4 are assigned. -/
theorem store_errors_absorbed_into_success :
    (SetUserActiveStatus (exFailingBackend (.GetTeam 100) [] []) 1 false exDB).1
      = .ok { User := { exUser 1 with IsActive := false }, TeamName := "" }
    ∧ (UpdatePRStatusToMerged exLib (exFailingBackend (.GetReviewersForPR 10) [] []) 20 "10"
        exDBOpen).1.toOption.map (fun d => d.AssignedReviewers) = some []
    ∧ assignedIDs (UpdatePRStatusToMerged exLib (exFailingBackend (.GetReviewersForPR 10) [] [])
        20 "10" exDBOpen).2 10 = [2, 3]
    ∧ (ReassignReviewer exLib
        (exFailingInBackend (.GetReviewersForPR 10)
          { exDBOpen with prReviewers := [(10, 3), (10, 4)] } [] [exUser 4])
        "10" "2" exDBOpen).1.toOption.map (fun d => d.AssignedReviewers) = some []
    ∧ assignedIDs (ReassignReviewer exLib
        (exFailingInBackend (.GetReviewersForPR 10)
          { exDBOpen with prReviewers := [(10, 3), (10, 4)] } [] [exUser 4])
        "10" "2" exDBOpen).2 10 = [3, 4] := by
  decide

/-- C14, amended. A store error makes the running operation return a failure when
it comes from a mutation, from `Begin` or `Commit` of `CreatePullRequest`, or
from a lookup the operation decides on: `GetUser` in `CreatePullRequest` and
`SetUserActiveStatus`, `GetPullRequest` in the merge and the reassignment, the
eligibility `GetReviewersForPR` and `GetCandidatesForReassignment` in the
reassignment. Absorbed are: a failing candidate lookup of the initial
assignment (no candidates), a failing duplicate probe of `CreatePullRequest`
(no such pull request, the creation goes on), and a failing team lookup after
the active flag is set (success with an empty team name). -/
theorem store_errors_surfaced (L : Lib) (B : Backend) (now : Time)
    (prIDStr title authorIDStr oldReviewerIDStr : String) (db : DB) (p a o userID : UUID)
    (isActive : Bool)
    (hp : L.uuidParse prIDStr = .ok p) (ha : L.uuidParse authorIDStr = .ok a)
    (ho : L.uuidParse oldReviewerIDStr = .ok o) :
    -- CreatePullRequest on a pool
    (∀ e, B.fault db .Begin = some e →
      CreatePullRequest L B .pool now prIDStr title authorIDStr db
        = (.error (.wrapError ("begin tx: " ++ e.Error) e), db))
    ∧ (∀ e0 e, GetPullRequest B db p = .error e0 → GetUser B db a = .error e →
      createPullRequestTx L B now prIDStr title authorIDStr db
        = (.error (.errorString "author not found"), db))
    ∧ (∀ e0 author e db1, GetPullRequest B db p = .error e0 → GetUser B db a = .ok author →
      CreatePullRequestWithID B now db p title a = (.error e, db1) →
      createPullRequestTx L B now prIDStr title authorIDStr db = (.error e, db1))
    ∧ (∀ (prID : UUID) (c : User) (cs : List User) (i : Nat) (assigned : List String)
        (d d1 : DB) (e : GoError), i < 2 →
      AddReviewerToPR B d prID c.ID = (.error e, d1) →
      assignLoop L B prID i (c :: cs) assigned d = (.error e, d1))
    ∧ (∀ e0 author row db1 e db2, GetPullRequest B db p = .error e0 →
      GetUser B db a = .ok author →
      CreatePullRequestWithID B now db p title a = (.ok row, db1) →
      assignLoop L B row.ID 0 (candidatesOrEmpty B db1 a) [] db1 = (.error e, db2) →
      createPullRequestTx L B now prIDStr title authorIDStr db = (.error e, db2))
    ∧ (∀ e txdb, B.fault db .Begin = none →
      createPullRequestTx L B now prIDStr title authorIDStr db = (.error e, txdb) →
      ∃ e', CreatePullRequest L B .pool now prIDStr title authorIDStr db = (.error e', db)
        ∧ (e' = e ∨ e'.Unwrap = some e))
    ∧ (∀ v txdb e, B.fault db .Begin = none →
      createPullRequestTx L B now prIDStr title authorIDStr db = (.ok v, txdb) →
      B.fault txdb .Commit = some e →
      CreatePullRequest L B .pool now prIDStr title authorIDStr db
        = (.error (.wrapError ("commit tx: " ++ e.Error) e), db))
    -- absorbed by CreatePullRequest
    ∧ (∀ d e, GetCandidatesForInitialReview B d a = .error e → candidatesOrEmpty B d a = [])
    ∧ (∀ e0 author row db1 assigned db2, GetPullRequest B db p = .error e0 →
      GetUser B db a = .ok author →
      CreatePullRequestWithID B now db p title a = (.ok row, db1) →
      assignLoop L B row.ID 0 (candidatesOrEmpty B db1 a) [] db1 = (.ok assigned, db2) →
      createPullRequestTx L B now prIDStr title authorIDStr db = (.ok (row, assigned), db2))
    -- UpdatePRStatusToMerged
    ∧ (∀ e, GetPullRequest B db p = .error e →
      UpdatePRStatusToMerged L B now prIDStr db = (.error (.errorString "PR not found"), db))
    ∧ (∀ pr e db1, GetPullRequest B db p = .ok pr → pr.Status ≠ "MERGED" →
      UpdatePullRequestStatus B now db p "MERGED" = (.error e, db1) →
      UpdatePRStatusToMerged L B now prIDStr db = (.error e, db1))
    -- ReassignReviewer
    ∧ (∀ e, GetPullRequest B db p = .error e →
      ReassignReviewer L B prIDStr oldReviewerIDStr db
        = (.error (.errorString "NOT_FOUND: PR not found"), db))
    ∧ (∀ pr e, GetPullRequest B db p = .ok pr → pr.Status ≠ "MERGED" →
      GetReviewersForPR B db p = .error e →
      ReassignReviewer L B prIDStr oldReviewerIDStr db = (.error e, db))
    ∧ (∀ pr rs e, GetPullRequest B db p = .ok pr → pr.Status ≠ "MERGED" →
      GetReviewersForPR B db p = .ok rs → rs.any (fun r => r.ID == o) = true →
      GetCandidatesForReassignment B db o p = .error e →
      ReassignReviewer L B prIDStr oldReviewerIDStr db = (.error e, db))
    ∧ (∀ pr rs c0 rest e db1, GetPullRequest B db p = .ok pr → pr.Status ≠ "MERGED" →
      GetReviewersForPR B db p = .ok rs → rs.any (fun r => r.ID == o) = true →
      GetCandidatesForReassignment B db o p = .ok (c0 :: rest) →
      RemoveReviewerFromPR B db p o = (.error e, db1) →
      ReassignReviewer L B prIDStr oldReviewerIDStr db = (.error e, db1))
    ∧ (∀ pr rs c0 rest v db1 e db2, GetPullRequest B db p = .ok pr → pr.Status ≠ "MERGED" →
      GetReviewersForPR B db p = .ok rs → rs.any (fun r => r.ID == o) = true →
      GetCandidatesForReassignment B db o p = .ok (c0 :: rest) →
      RemoveReviewerFromPR B db p o = (.ok v, db1) →
      AddReviewerToPR B db1 p c0.ID = (.error e, db2) →
      ReassignReviewer L B prIDStr oldReviewerIDStr db = (.error e, db2))
    ∧ (∀ pr rs c0 rest v db1 w db2 e, GetPullRequest B db p = .ok pr →
      pr.Status ≠ "MERGED" →
      GetReviewersForPR B db p = .ok rs → rs.any (fun r => r.ID == o) = true →
      GetCandidatesForReassignment B db o p = .ok (c0 :: rest) →
      RemoveReviewerFromPR B db p o = (.ok v, db1) →
      AddReviewerToPR B db1 p c0.ID = (.ok w, db2) →
      GetPullRequest B db2 p = .error e →
      ReassignReviewer L B prIDStr oldReviewerIDStr db = (.error e, db2))
    -- SetUserActiveStatus
    ∧ (∀ e db1, SetUserActive B db userID isActive = (.error e, db1) →
      SetUserActiveStatus B userID isActive db = (.error e, db1))
    ∧ (∀ v db1 e, SetUserActive B db userID isActive = (.ok v, db1) →
      GetUser B db1 userID = .error e →
      SetUserActiveStatus B userID isActive db = (.error e, db1))
    -- absorbed by SetUserActiveStatus
    ∧ (∀ v db1 user e, SetUserActive B db userID isActive = (.ok v, db1) →
      GetUser B db1 userID = .ok user → GetTeam B db1 user.TeamID.Bytes = .error e →
      SetUserActiveStatus B userID isActive db = (.ok { User := user, TeamName := "" }, db1)) := by
  refine ⟨?_, ?_, ?_, ?_, ?_, ?_, ?_, ?_, ?_, ?_, ?_, ?_, ?_, ?_, ?_, ?_, ?_, ?_, ?_, ?_⟩
  · intro e hb
    simp [CreatePullRequest, ExecTx, hb]
  · intro e0 e hg hu
    simp [createPullRequestTx, hp, ha, hg, hu]
  · intro e0 author e db1 hg hu hc
    simp [createPullRequestTx, hp, ha, hg, hu, hc]
  · intro prID c cs i assigned d d1 e hi hadd
    have hi2 : ¬ i ≥ 2 := by omega
    rw [assignLoop]
    simp [hi2, hadd]
  · intro e0 author row db1 e db2 hg hu hc hl
    simp [createPullRequestTx, hp, ha, hg, hu, hc, hl]
  · intro e txdb hb htx
    cases hr : B.fault txdb .Rollback with
    | none => exact ⟨e, by simp [CreatePullRequest, ExecTx, hb, htx, hr], Or.inl rfl⟩
    | some rb =>
      exact ⟨.wrapError (e.Error ++ "; rollback error: " ++ rb.Error) e,
        by simp [CreatePullRequest, ExecTx, hb, htx, hr], Or.inr rfl⟩
  · intro v txdb e hb htx hc
    simp [CreatePullRequest, ExecTx, hb, htx, hc]
  · intro d e hc
    simp [candidatesOrEmpty, hc]
  · intro e0 author row db1 assigned db2 hg hu hc hl
    simp [createPullRequestTx, hp, ha, hg, hu, hc, hl]
  · intro e hg
    simp [UpdatePRStatusToMerged, hp, hg]
  · intro pr e db1 hg hst hu
    simp [UpdatePRStatusToMerged, hp, hg, hst, hu]
  · intro e hg
    simp [ReassignReviewer, hp, ho, hg]
  · intro pr e hg hst hr
    simp [ReassignReviewer, hp, ho, hg, hst, hr]
  · intro pr rs e hg hst hr hany hc
    simp [ReassignReviewer, hp, ho, hg, hst, hr, hany, hc]
  · intro pr rs c0 rest e db1 hg hst hr hany hc hrem
    simp [ReassignReviewer, hp, ho, hg, hst, hr, hany, hc, hrem]
  · intro pr rs c0 rest v db1 e db2 hg hst hr hany hc hrem hadd
    simp [ReassignReviewer, hp, ho, hg, hst, hr, hany, hc, hrem, hadd]
  · intro pr rs c0 rest v db1 w db2 e hg hst hr hany hc hrem hadd hg2
    simp [ReassignReviewer, hp, ho, hg, hst, hr, hany, hc, hrem, hadd, hg2]
  · intro e db1 hs
    simp [SetUserActiveStatus, hs]
  · intro v db1 e hs hu
    simp [SetUserActiveStatus, hs, hu]
  · intro v db1 user e hs hu ht
    simp [SetUserActiveStatus, hs, hu, ht]

/-- Worked example for C14, amended: on the example state with the open pull
request 10, a failing `UpdatePullRequestStatus` fails the merge, and a failing
`GetUser` fails `SetUserActiveStatus`. -/
theorem store_errors_surfaced_witness :
    UpdatePRStatusToMerged exLib (exFailingBackend (.UpdatePullRequestStatus 10 "MERGED") [] [])
        20 "10" exDBOpen
      = (.error (.errorString "connection lost"), exDBOpen)
    ∧ (SetUserActiveStatus (exFailingBackend (.GetUser 1) [] []) 1 false exDBOpen).1
      = .error (.errorString "connection lost") := by
  have h := store_errors_surfaced exLib
    (exFailingBackend (.UpdatePullRequestStatus 10 "MERGED") [] []) 20 "10" "t" "1" "2"
    exDBOpen 10 1 2 1 false rfl rfl rfl
  have h2 := store_errors_surfaced exLib (exFailingBackend (.GetUser 1) [] []) 20 "10" "t" "1" "2"
    exDBOpen 10 1 2 1 false rfl rfl rfl
  refine ⟨h.2.2.2.2.2.2.2.2.2.2.1 (openPullRequest 7 10 "pr-1" 1) _ _ (by decide) (by decide)
    (by decide), ?_⟩
  have h3 := h2.2.2.2.2.2.2.2.2.2.2.2.2.2.2.2.2.2.2.1 ()
    (SetUserActive (exFailingBackend (.GetUser 1) [] []) exDBOpen 1 false).2
    (.errorString "connection lost") (by decide) (by decide)
  rw [h3]

/-! ## Well-formed reviewer lists -/

theorem assignedIDs_nodup (db : DB) (p : UUID) (h : db.prReviewers.Nodup) :
    (assignedIDs db p).Nodup := by
  unfold assignedIDs
  apply List.Nodup.map_on _ (h.filter _)
  intro x hx y hy hxy
  have hx1 : x.1 = p := by simpa using (List.mem_filter.mp hx).2
  have hy1 : y.1 = p := by simpa using (List.mem_filter.mp hy).2
  exact Prod.ext (hx1.trans hy1.symm) hxy

theorem WellAssigned_of_no_rows (db : DB) (h0 : db.pullRequests = []) (h1 : db.prReviewers = []) :
    WellAssigned db := by
  refine ⟨?_, ?_, ?_⟩
  · intro row hrow; rw [h1] at hrow; exact absurd hrow (List.not_mem_nil _)
  · intro pr hpr; rw [h0] at hpr; exact absurd hpr (List.not_mem_nil _)
  · rw [h1]; exact List.nodup_nil

theorem CreatePullRequestWithID_wellAssigned (B : Backend) (now : Time) (db : DB) (id : UUID)
    (title : String) (authorID : UUID) (h : WellAssigned db) :
    WellAssigned (CreatePullRequestWithID B now db id title authorID).2 := by
  cases hc : CreatePullRequestWithID B now db id title authorID with
  | mk r db1 =>
    cases r with
    | error e =>
      rw [CreatePullRequestWithID_error_state B now db db1 id title authorID e hc]
      exact h
    | ok row =>
      have hnew := CreatePullRequestWithID_ok_new B now db db1 id title authorID row hc
      obtain ⟨_, hdb1⟩ := CreatePullRequestWithID_ok_state B now db db1 id title authorID row hc
      subst hdb1
      obtain ⟨h1, h2, h3⟩ := h
      refine ⟨?_, ?_, h3⟩
      · intro r hr
        obtain ⟨pr, hpr, hid⟩ := h1 r hr
        exact ⟨pr, List.mem_append_left _ hpr, hid⟩
      · intro pr hpr
        rcases List.mem_append.mp hpr with hold | hnewrow
        · exact h2 pr hold
        · have hpreq : pr = openPullRequest now id title authorID := by simpa using hnewrow
          subst hpreq
          intro hmem
          have hrow : (id, authorID) ∈ db.prReviewers :=
            (mem_assignedIDs db id authorID).mp hmem
          obtain ⟨pr0, hpr0, hid0⟩ := h1 _ hrow
          have : db.pullRequests.any (fun r => r.ID == id) = true :=
            List.any_eq_true.mpr ⟨pr0, hpr0, by simpa using hid0⟩
          rw [this] at hnew
          exact Bool.noConfusion hnew

theorem AddReviewerToPR_ok_checks (B : Backend) (db db1 : DB) (prID userID : UUID) (u : Unit)
    (h : AddReviewerToPR B db prID userID = (.ok u, db1)) :
    db.pullRequests.any (fun r => r.ID == prID) = true ∧ (prID, userID) ∉ db.prReviewers := by
  unfold AddReviewerToPR at h
  split at h
  · simp at h
  · split at h
    · simp at h
    · next hpr =>
      split at h
      · simp at h
      · split at h
        · simp at h
        · next hdup =>
          refine ⟨by simpa using hpr, ?_⟩
          intro hmem
          apply hdup
          exact List.any_eq_true.mpr ⟨_, hmem, by simp⟩

theorem AddReviewerToPR_wellAssigned (B : Backend) (db : DB) (prID userID : UUID)
    (h : WellAssigned db)
    (hauthor : ∀ pr ∈ db.pullRequests, pr.ID = prID → pr.AuthorID ≠ userID) :
    WellAssigned (AddReviewerToPR B db prID userID).2
      ∧ (AddReviewerToPR B db prID userID).2.pullRequests = db.pullRequests := by
  cases hc : AddReviewerToPR B db prID userID with
  | mk r db1 =>
    cases r with
    | error e =>
      rw [AddReviewerToPR_error_state B db db1 prID userID e hc]
      exact ⟨h, rfl⟩
    | ok v =>
      obtain ⟨hpr, hnew⟩ := AddReviewerToPR_ok_checks B db db1 prID userID v hc
      have hdb1 := AddReviewerToPR_ok_state B db db1 prID userID v hc
      subst hdb1
      obtain ⟨h1, h2, h3⟩ := h
      refine ⟨⟨?_, ?_, ?_⟩, rfl⟩
      · intro r hr
        rcases List.mem_append.mp hr with hold | hnewrow
        · exact h1 r hold
        · have : r = (prID, userID) := by simpa using hnewrow
          subst this
          obtain ⟨pr, hmem, hid⟩ := List.any_eq_true.mp hpr
          exact ⟨pr, hmem, by simpa using hid⟩
      · intro pr hprmem hmem
        have hrow := (mem_assignedIDs _ pr.ID pr.AuthorID).mp hmem
        rcases List.mem_append.mp hrow with hold | hnewrow
        · exact h2 pr hprmem ((mem_assignedIDs db pr.ID pr.AuthorID).mpr hold)
        · have heq : (pr.ID, pr.AuthorID) = (prID, userID) := by simpa using hnewrow
          have hid : pr.ID = prID := congrArg Prod.fst heq
          have hau : pr.AuthorID = userID := congrArg Prod.snd heq
          exact hauthor pr hprmem hid hau
      · exact List.Nodup.append h3 (List.nodup_singleton _)
          (by
            intro x hx hx2
            have : x = (prID, userID) := by simpa using hx2
            subst this
            exact hnew hx)

theorem assignLoop_wellAssigned (L : Lib) (B : Backend) (prID : UUID) :
    ∀ (cs : List User) (i : Nat) (assigned : List String) (db : DB),
      WellAssigned db →
      (∀ c ∈ cs, ∀ pr ∈ db.pullRequests, pr.ID = prID → pr.AuthorID ≠ c.ID) →
      WellAssigned (assignLoop L B prID i cs assigned db).2 := by
  intro cs
  induction cs with
  | nil => intro i assigned db h _; exact h
  | cons c cs ih =>
    intro i assigned db h hauthor
    rw [assignLoop]
    by_cases hi : i ≥ 2
    · simp only [hi, if_true]; exact h
    · simp only [hi, if_false]
      obtain ⟨hw, hprs⟩ := AddReviewerToPR_wellAssigned B db prID c.ID h
        (hauthor c (List.mem_cons_self _ _))
      cases hc : AddReviewerToPR B db prID c.ID with
      | mk r db1 =>
        rw [hc] at hw hprs
        cases r with
        | error e => exact hw
        | ok v =>
          apply ih (i + 1) _ db1 hw
          intro c' hc' pr hpr hid
          have hpr' : pr ∈ db.pullRequests := by
            have : db1.pullRequests = db.pullRequests := hprs
            rw [this] at hpr; exact hpr
          exact hauthor c' (List.mem_cons_of_mem _ hc') pr hpr' hid

theorem mem_candidatesOrEmpty (B : Backend) (db : DB) (authorID : UUID) (c : User)
    (h : c ∈ candidatesOrEmpty B db authorID) : c ∈ B.candidatesForInitialReview db authorID := by
  unfold candidatesOrEmpty GetCandidatesForInitialReview at h
  split at h
  · next e heq =>
    exact absurd h (List.not_mem_nil _)
  · next cs heq =>
    split at heq
    · simp at heq
    · have : cs = B.candidatesForInitialReview db authorID := by
        simpa using heq.symm
      rw [← this]; exact h

theorem createPullRequestTx_wellAssigned (L : Lib) (B : Backend) (now : Time)
    (prID title authorIDStr : String) (db : DB) (hB : CandidatesHonourContract B)
    (h : WellAssigned db) :
    WellAssigned (createPullRequestTx L B now prID title authorIDStr db).2 := by
  cases hp : L.uuidParse prID with
  | error e => simp only [createPullRequestTx, hp]; exact h
  | ok prUUID =>
    cases ha : L.uuidParse authorIDStr with
    | error e => simp only [createPullRequestTx, hp, ha]; exact h
    | ok authorID =>
      cases hg : GetPullRequest B db prUUID with
      | ok _ => simp only [createPullRequestTx, hp, ha, hg]; exact h
      | error _ =>
        cases hu : GetUser B db authorID with
        | error _ => simp only [createPullRequestTx, hp, ha, hg, hu]; exact h
        | ok _ =>
          have hw1 := CreatePullRequestWithID_wellAssigned B now db prUUID title authorID h
          cases hc : CreatePullRequestWithID B now db prUUID title authorID with
          | mk r db1 =>
            rw [hc] at hw1
            cases r with
            | error e =>
              simp only [createPullRequestTx, hp, ha, hg, hu, hc]
              exact hw1
            | ok row =>
              have hnew := CreatePullRequestWithID_ok_new B now db db1 prUUID title authorID row hc
              obtain ⟨hrow, hdb1⟩ :=
                CreatePullRequestWithID_ok_state B now db db1 prUUID title authorID row hc
              have hid : row.ID = prUUID := by rw [hrow]; rfl
              have hauthor : ∀ c ∈ candidatesOrEmpty B db1 authorID,
                  ∀ pr ∈ db1.pullRequests, pr.ID = prUUID → pr.AuthorID ≠ c.ID := by
                intro c hc' pr hpr hprid
                have hcne : c.ID ≠ authorID :=
                  hB.1 db1 authorID c (mem_candidatesOrEmpty B db1 authorID c hc')
                rw [hdb1] at hpr
                rcases List.mem_append.mp hpr with hold | hnewrow
                · have : db.pullRequests.any (fun r => r.ID == prUUID) = true :=
                    List.any_eq_true.mpr ⟨pr, hold, by simpa using hprid⟩
                  rw [this] at hnew
                  exact Bool.noConfusion hnew
                · have hpreq : pr = openPullRequest now prUUID title authorID := by
                    simpa using hnewrow
                  rw [hpreq]
                  exact fun heq => hcne heq.symm
              have hw2 := assignLoop_wellAssigned L B prUUID
                (candidatesOrEmpty B db1 authorID) 0 [] db1 hw1 hauthor
              simp only [createPullRequestTx, hp, ha, hg, hu, hc, hid]
              cases hl : assignLoop L B prUUID 0 (candidatesOrEmpty B db1 authorID) [] db1 with
              | mk r2 db2 =>
                rw [hl] at hw2
                cases r2 with
                | error e => exact hw2
                | ok v => exact hw2

theorem CreatePullRequest_wellAssigned (L : Lib) (B : Backend) (q : DBTX) (now : Time)
    (prID title authorIDStr : String) (db : DB) (hB : CandidatesHonourContract B)
    (h : WellAssigned db) :
    WellAssigned (CreatePullRequest L B q now prID title authorIDStr db).2 := by
  have h2 : (CreatePullRequest L B q now prID title authorIDStr db).2
      = (ExecTx B q (createPullRequestTx L B now prID title authorIDStr) db).db := by
    unfold CreatePullRequest
    simp only
    split <;> rfl
  rw [h2]
  rcases ExecTx_db B q (createPullRequestTx L B now prID title authorIDStr) db with h3 | h3
  · rw [h3]; exact h
  · rw [h3]; exact createPullRequestTx_wellAssigned L B now prID title authorIDStr db hB h

theorem UpdatePullRequestStatus_wellAssigned (B : Backend) (now : Time) (db : DB) (id : UUID)
    (status : String) (h : WellAssigned db) :
    WellAssigned (UpdatePullRequestStatus B now db id status).2 := by
  unfold UpdatePullRequestStatus
  split
  · exact h
  · split
    · exact h
    · obtain ⟨h1, h2, h3⟩ := h
      refine ⟨?_, ?_, h3⟩
      · intro row hrow
        obtain ⟨pr, hpr, hid⟩ := h1 row hrow
        refine ⟨_, List.mem_map.mpr ⟨pr, hpr, rfl⟩, ?_⟩
        rw [← hid]
        split <;> rfl
      · intro pr hpr
        obtain ⟨pr0, hpr0, heq⟩ := List.mem_map.mp hpr
        have hid : pr.ID = pr0.ID := by rw [← heq]; split <;> rfl
        have hau : pr.AuthorID = pr0.AuthorID := by rw [← heq]; split <;> rfl
        have := h2 pr0 hpr0
        rw [hid, hau]
        exact this

theorem RemoveReviewerFromPR_wellAssigned (B : Backend) (db : DB) (prID userID : UUID)
    (h : WellAssigned db) :
    WellAssigned (RemoveReviewerFromPR B db prID userID).2
      ∧ (RemoveReviewerFromPR B db prID userID).2.pullRequests = db.pullRequests := by
  unfold RemoveReviewerFromPR
  split
  · exact ⟨h, rfl⟩
  · obtain ⟨h1, h2, h3⟩ := h
    refine ⟨⟨?_, ?_, h3.filter _⟩, rfl⟩
    · intro row hrow
      exact h1 row (List.mem_filter.mp hrow).1
    · intro pr hpr hmem
      have hrow := (mem_assignedIDs _ pr.ID pr.AuthorID).mp hmem
      exact h2 pr hpr ((mem_assignedIDs db pr.ID pr.AuthorID).mpr (List.mem_filter.mp hrow).1)

theorem UpdatePRStatusToMerged_wellAssigned (L : Lib) (B : Backend) (now : Time)
    (prIDStr : String) (db : DB) (h : WellAssigned db) :
    WellAssigned (UpdatePRStatusToMerged L B now prIDStr db).2 := by
  cases hp : L.uuidParse prIDStr with
  | error e => simp only [UpdatePRStatusToMerged, hp]; exact h
  | ok prID =>
    cases hg : GetPullRequest B db prID with
    | error _ => simp only [UpdatePRStatusToMerged, hp, hg]; exact h
    | ok existingPR =>
      by_cases hm : existingPR.Status = "MERGED"
      · simp only [UpdatePRStatusToMerged, hp, hg, hm, if_true]; exact h
      · have hk := UpdatePullRequestStatus_wellAssigned B now db prID "MERGED" h
        simp only [UpdatePRStatusToMerged, hp, hg, hm, if_false]
        cases hu : UpdatePullRequestStatus B now db prID "MERGED" with
        | mk r db1 =>
          rw [hu] at hk
          cases r with
          | error e => exact hk
          | ok v => exact hk

theorem mem_candidatesForReassignment (B : Backend) (db : DB) (o p : UUID) (cs : List User)
    (h : GetCandidatesForReassignment B db o p = .ok cs) :
    cs = B.candidatesForReassignment db o p := by
  unfold GetCandidatesForReassignment at h
  split at h
  · simp at h
  · simpa using h.symm

theorem ReassignReviewer_wellAssigned (L : Lib) (B : Backend)
    (prIDStr oldReviewerIDStr : String) (db : DB) (hB : CandidatesHonourContract B)
    (h : WellAssigned db) :
    WellAssigned (ReassignReviewer L B prIDStr oldReviewerIDStr db).2 := by
  cases hp : L.uuidParse prIDStr with
  | error e => simp only [ReassignReviewer, hp]; exact h
  | ok prID =>
    cases ho : L.uuidParse oldReviewerIDStr with
    | error e => simp only [ReassignReviewer, hp, ho]; exact h
    | ok oldReviewerID =>
      cases hg : GetPullRequest B db prID with
      | error _ => simp only [ReassignReviewer, hp, ho, hg]; exact h
      | ok existingPR =>
        by_cases hm : existingPR.Status = "MERGED"
        · simp only [ReassignReviewer, hp, ho, hg, hm, if_true]; exact h
        · cases hr : GetReviewersForPR B db prID with
          | error _ => simp only [ReassignReviewer, hp, ho, hg, hm, hr, if_false]; exact h
          | ok reviewers =>
            cases hany : reviewers.any (fun r => r.ID == oldReviewerID) with
            | false =>
              simp [ReassignReviewer, hp, ho, hg, hm, hr, hany]
              exact h
            | true =>
              cases hc : GetCandidatesForReassignment B db oldReviewerID prID with
              | error _ =>
                simp [ReassignReviewer, hp, ho, hg, hm, hr, hany, hc]
                exact h
              | ok cs =>
                cases cs with
                | nil =>
                  simp [ReassignReviewer, hp, ho, hg, hm, hr, hany, hc]
                  exact h
                | cons newReviewer rest =>
                  have hmem : newReviewer ∈ B.candidatesForReassignment db oldReviewerID prID := by
                    rw [← mem_candidatesForReassignment B db oldReviewerID prID _ hc]
                    exact List.mem_cons_self _ _
                  have hcontract := (hB.2 db oldReviewerID prID newReviewer hmem).2.1
                  obtain ⟨hw1, hprs1⟩ :=
                    RemoveReviewerFromPR_wellAssigned B db prID oldReviewerID h
                  cases hrem : RemoveReviewerFromPR B db prID oldReviewerID with
                  | mk r1 db1 =>
                    rw [hrem] at hw1 hprs1
                    cases r1 with
                    | error e =>
                      simp [ReassignReviewer, hp, ho, hg, hm, hr, hany, hc, hrem]
                      exact hw1
                    | ok v1 =>
                      have hauthor : ∀ pr ∈ db1.pullRequests, pr.ID = prID →
                          pr.AuthorID ≠ newReviewer.ID := by
                        intro pr hpr hid heq
                        have hpr' : pr ∈ db.pullRequests := by
                          have : db1.pullRequests = db.pullRequests := hprs1
                          rw [this] at hpr; exact hpr
                        exact hcontract pr hpr' hid heq.symm
                      obtain ⟨hw2, _⟩ :=
                        AddReviewerToPR_wellAssigned B db1 prID newReviewer.ID hw1 hauthor
                      cases hadd : AddReviewerToPR B db1 prID newReviewer.ID with
                      | mk r2 db2 =>
                        rw [hadd] at hw2
                        cases r2 with
                        | error e =>
                          simp [ReassignReviewer, hp, ho, hg, hm, hr, hany, hc, hrem, hadd]
                          exact hw2
                        | ok v2 =>
                          cases hg2 : GetPullRequest B db2 prID with
                          | error e =>
                            simp [ReassignReviewer, hp, ho, hg, hm, hr, hany, hc, hrem, hadd, hg2]
                            exact hw2
                          | ok updatedPR =>
                            simp [ReassignReviewer, hp, ho, hg, hm, hr, hany, hc, hrem, hadd, hg2]
                            exact hw2

theorem runOps_wellAssigned (L : Lib) (B : Backend) (q : DBTX)
    (hB : CandidatesHonourContract B) :
    ∀ (ops : List Op) (db : DB), WellAssigned db → WellAssigned (runOps L B q ops db) := by
  intro ops
  induction ops with
  | nil => intro db h; exact h
  | cons op ops ih =>
    intro db h
    apply ih
    cases op with
    | create now prID title authorIDStr =>
      exact CreatePullRequest_wellAssigned L B q now prID title authorIDStr db hB h
    | merge now prIDStr => exact UpdatePRStatusToMerged_wellAssigned L B now prIDStr db h
    | reassign prIDStr oldReviewerIDStr =>
      exact ReassignReviewer_wellAssigned L B prIDStr oldReviewerIDStr db hB h

/-- C11. Start from a store without pull requests and without assignment rows (the
empty store is one) and run any sequence of `CreatePullRequest`,
`UpdatePRStatusToMerged` and `ReassignReviewer` calls, with any arguments and
whichever store calls fail, over a backend whose candidate queries honour their
contract. Then for every stored pull request the assigned ids do not contain
its author and contain no id twice, and so does every reviewer list
`GetReviewersForPR` returns for it. -/
theorem reviewer_lists_well_formed (L : Lib) (B : Backend) (q : DBTX) (ops : List Op)
    (db0 : DB) (hB : CandidatesHonourContract B)
    (h0 : db0.pullRequests = []) (h1 : db0.prReviewers = []) :
    ∀ pr ∈ (runOps L B q ops db0).pullRequests,
      pr.AuthorID ∉ assignedIDs (runOps L B q ops db0) pr.ID
      ∧ (assignedIDs (runOps L B q ops db0) pr.ID).Nodup
      ∧ ∀ rs, GetReviewersForPR B (runOps L B q ops db0) pr.ID = .ok rs →
          pr.AuthorID ∉ rs.map (fun r => r.ID) ∧ (rs.map (fun r => r.ID)).Nodup := by
  have hw := runOps_wellAssigned L B q hB ops db0 (WellAssigned_of_no_rows db0 h0 h1)
  intro pr hpr
  have hnd := assignedIDs_nodup (runOps L B q ops db0) pr.ID hw.2.2
  refine ⟨hw.2.1 pr hpr, hnd, ?_⟩
  intro rs hrs
  have hids : rs.map (fun r => r.ID)
      = (assignedIDs (runOps L B q ops db0) pr.ID).filter
          (fun uid => (runOps L B q ops db0).users.any (fun u => u.ID == uid)) := by
    unfold GetReviewersForPR at hrs
    split at hrs
    · simp at hrs
    · rw [← Except.ok.inj hrs]
      exact map_ID_filterMap_find _ _
  rw [hids]
  exact ⟨fun hmem => hw.2.1 pr hpr (List.mem_filter.mp hmem).1, hnd.filter _⟩

theorem exHonestBackend_contract : CandidatesHonourContract exHonestBackend := by
  refine ⟨?_, ?_⟩
  · intro d authorID u hu
    have h := (List.mem_filter.mp hu).2
    simp only [Bool.and_eq_true, Bool.not_eq_true', beq_eq_false_iff_ne] at h
    exact h.2
  · intro d old prID u hu
    have h := (List.mem_filter.mp hu).2
    simp only [Bool.and_eq_true, Bool.not_eq_true', beq_eq_false_iff_ne] at h
    obtain ⟨⟨⟨_, hold⟩, hauthor⟩, hassigned⟩ := h
    refine ⟨hold, ?_, ?_⟩
    · intro pr hpr hid heq
      have : d.pullRequests.any (fun pr => pr.ID == prID && pr.AuthorID == u.ID) = true :=
        List.any_eq_true.mpr ⟨pr, hpr, by simp [hid, heq]⟩
      rw [this] at hauthor
      exact Bool.noConfusion hauthor
    · intro hmem
      have : (assignedIDs d prID).contains u.ID = true := by simpa using hmem
      rw [this] at hassigned
      exact Bool.noConfusion hassigned

/-- Worked example for C11: on the example state with users 1 to 4 and no pull
request, pull request 10 of author 1 is created (reviewers 2 and 3), reviewer 2
is reassigned (to 4) and the pull request is merged; its reviewers are then 3
and 4, without its author and without a repetition. -/
theorem reviewer_lists_well_formed_witness :
    (∀ pr ∈ (runOps exLib exHonestBackend .pool
          [.create 7 "10" "pr-1" "1", .reassign "10" "2", .merge 20 "10"] exDB).pullRequests,
        pr.AuthorID ∉ assignedIDs (runOps exLib exHonestBackend .pool
          [.create 7 "10" "pr-1" "1", .reassign "10" "2", .merge 20 "10"] exDB) pr.ID
        ∧ (assignedIDs (runOps exLib exHonestBackend .pool
          [.create 7 "10" "pr-1" "1", .reassign "10" "2", .merge 20 "10"] exDB) pr.ID).Nodup)
    ∧ assignedIDs (runOps exLib exHonestBackend .pool
        [.create 7 "10" "pr-1" "1", .reassign "10" "2", .merge 20 "10"] exDB) 10 = [3, 4]
    ∧ (runOps exLib exHonestBackend .pool
        [.create 7 "10" "pr-1" "1", .reassign "10" "2", .merge 20 "10"] exDB).pullRequests.map
          (fun pr => (pr.ID, pr.AuthorID, pr.Status)) = [(10, 1, "MERGED")] :=
  ⟨fun pr hpr =>
      have h := reviewer_lists_well_formed exLib exHonestBackend .pool
        [.create 7 "10" "pr-1" "1", .reassign "10" "2", .merge 20 "10"] exDB
        exHonestBackend_contract rfl rfl pr hpr
      ⟨h.1, h.2.1⟩,
    by decide, by decide⟩

/-! ## Team references in general -/

/-- Whatever the state and the team, a successful `GetTeamDetails` returns no
member: the reference it looks users up by is not valid. -/
theorem GetTeamDetails_members_empty (L : Lib) (B : Backend) (teamName : String) (db : DB)
    (d : TeamDetails) (h : GetTeamDetails L B teamName db = .ok d) : d.Members = [] := by
  unfold GetTeamDetails at h
  split at h
  · simp at h
  · split at h
    · simp at h
    · next users hu =>
      have hnil : users = [] := by
        unfold GetUsersByTeamID at hu
        split at hu
        · simp at hu
        · have := Except.ok.inj hu
          rw [← this]
          simp [teamReference]
      subst hnil
      have := Except.ok.inj h
      rw [← this]
      rfl

/-- Whatever the state, a user `UpsertUser` stores for the team reference of
`CreateTeamWithMembers` has a NULL team. -/
theorem UpsertUser_teamReference_null (B : Backend) (db db1 : DB) (id teamID : UUID)
    (name : String) (isActive : Bool) (u : User)
    (h : UpsertUser B db id name (teamReference teamID) isActive = (.ok u, db1)) :
    u.TeamID = PgUUID.null := by
  unfold UpsertUser at h
  split at h
  · simp at h
  · split at h
    · simp at h
    · simp only at h
      split at h
      · have := (Prod.mk.inj h).1
        rw [← Except.ok.inj this]
        rfl
      · have := (Prod.mk.inj h).1
        rw [← Except.ok.inj this]
        rfl

/-! ## Interleaved reassignment requests -/

/-- Run on its own, the step machine of a reassignment request is
`ReassignReviewer`: same result, same state. -/
theorem reassignAlone_eq_ReassignReviewer (L : Lib) (B : Backend)
    (prIDStr oldReviewerIDStr : String) (db : DB) (p o : UUID)
    (hp : L.uuidParse prIDStr = .ok p) (ho : L.uuidParse oldReviewerIDStr = .ok o) :
    reassignAlone L B p o db
      = (.done (ReassignReviewer L B prIDStr oldReviewerIDStr db).1,
         (ReassignReviewer L B prIDStr oldReviewerIDStr db).2) := by
  simp only [reassignAlone, Nat.iterate]
  cases hg : GetPullRequest B db p with
  | error _ => simp [reassignStep, ReassignReviewer, hp, ho, hg]
  | ok existingPR =>
    by_cases hm : existingPR.Status = "MERGED"
    · simp [reassignStep, ReassignReviewer, hp, ho, hg, hm]
    · cases hr : GetReviewersForPR B db p with
      | error _ => simp [reassignStep, ReassignReviewer, hp, ho, hg, hm, hr]
      | ok reviewers =>
        cases hany : reviewers.any (fun r => r.ID == o) with
        | false => simp [reassignStep, ReassignReviewer, hp, ho, hg, hm, hr, hany]
        | true =>
          cases hc : GetCandidatesForReassignment B db o p with
          | error _ => simp [reassignStep, ReassignReviewer, hp, ho, hg, hm, hr, hany, hc]
          | ok cs =>
            cases cs with
            | nil => simp [reassignStep, ReassignReviewer, hp, ho, hg, hm, hr, hany, hc]
            | cons newReviewer rest =>
              cases hrem : RemoveReviewerFromPR B db p o with
              | mk r1 db1 =>
                cases r1 with
                | error e =>
                  simp [reassignStep, ReassignReviewer, hp, ho, hg, hm, hr, hany, hc, hrem]
                | ok v1 =>
                  cases hadd : AddReviewerToPR B db1 p newReviewer.ID with
                  | mk r2 db2 =>
                    cases r2 with
                    | error e =>
                      simp [reassignStep, ReassignReviewer, hp, ho, hg, hm, hr, hany, hc, hrem,
                        hadd]
                    | ok v2 =>
                      cases hg2 : GetPullRequest B db2 p with
                      | error e =>
                        simp [reassignStep, ReassignReviewer, hp, ho, hg, hm, hr, hany, hc, hrem,
                          hadd, hg2]
                      | ok updatedPR =>
                        simp [reassignStep, ReassignReviewer, hp, ho, hg, hm, hr, hany, hc, hrem,
                          hadd, hg2]

theorem RemoveReviewerFromPR_error_state (B : Backend) (db db1 : DB) (prID userID : UUID)
    (e : GoError) (h : RemoveReviewerFromPR B db prID userID = (.error e, db1)) : db1 = db := by
  unfold RemoveReviewerFromPR at h
  split at h
  · simp only [Prod.mk.injEq] at h; exact h.2.symm
  · simp at h

/-- What one store call of one request keeps: no assignment row twice, a
replacement that is not the old reviewer, and the old reviewer's row gone once
it is gone. -/
theorem reassignStep_keeps (L : Lib) (B : Backend) (p o : UUID)
    (hold : ∀ d, ∀ u ∈ B.candidatesForReassignment d o p, u.ID ≠ o)
    (ph : ReassignPhase) (db : DB)
    (hnd : db.prReviewers.Nodup)
    (hc : ∀ c, ph.candidate = some c → c.ID ≠ o)
    (hpast : ph.pastRemove = true → (p, o) ∉ db.prReviewers) :
    (reassignStep L B p o ph db).2.prReviewers.Nodup
    ∧ (∀ c, (reassignStep L B p o ph db).1.candidate = some c → c.ID ≠ o)
    ∧ ((reassignStep L B p o ph db).1.pastRemove = true →
        (p, o) ∉ (reassignStep L B p o ph db).2.prReviewers)
    ∧ ((p, o) ∉ db.prReviewers → (p, o) ∉ (reassignStep L B p o ph db).2.prReviewers) := by
  cases ph with
  | start =>
    simp only [reassignStep]
    cases GetPullRequest B db p with
    | error _ => exact ⟨hnd, by simp [ReassignPhase.candidate], by simp [ReassignPhase.pastRemove], id⟩
    | ok pr =>
      by_cases hm : pr.Status = "MERGED"
      · simp only [hm, if_true]
        exact ⟨hnd, by simp [ReassignPhase.candidate], by simp [ReassignPhase.pastRemove], id⟩
      · simp only [hm, if_false]
        exact ⟨hnd, by simp [ReassignPhase.candidate], by simp [ReassignPhase.pastRemove], id⟩
  | gotPR =>
    simp only [reassignStep]
    cases GetReviewersForPR B db p with
    | error _ => exact ⟨hnd, by simp [ReassignPhase.candidate], by simp [ReassignPhase.pastRemove], id⟩
    | ok reviewers =>
      simp only []
      split
      · exact ⟨hnd, by simp [ReassignPhase.candidate], by simp [ReassignPhase.pastRemove], id⟩
      · exact ⟨hnd, by simp [ReassignPhase.candidate], by simp [ReassignPhase.pastRemove], id⟩
  | gotReviewers =>
    simp only [reassignStep]
    cases hcs : GetCandidatesForReassignment B db o p with
    | error _ => exact ⟨hnd, by simp [ReassignPhase.candidate], by simp [ReassignPhase.pastRemove], id⟩
    | ok cs =>
      cases cs with
      | nil => exact ⟨hnd, by simp [ReassignPhase.candidate], by simp [ReassignPhase.pastRemove], id⟩
      | cons newReviewer rest =>
        refine ⟨hnd, ?_, by simp [ReassignPhase.pastRemove], id⟩
        intro c hceq
        have hceq2 : newReviewer = c := by simpa [ReassignPhase.candidate] using hceq
        rw [← hceq2]
        apply hold db
        rw [← mem_candidatesForReassignment B db o p _ hcs]
        exact List.mem_cons_self _ _
  | gotCandidate newReviewer =>
    have hne : newReviewer.ID ≠ o := hc newReviewer rfl
    simp only [reassignStep]
    cases hrem : RemoveReviewerFromPR B db p o with
    | mk r db1 =>
      cases r with
      | error e =>
        rw [RemoveReviewerFromPR_error_state B db db1 p o e hrem]
        exact ⟨hnd, by simp [ReassignPhase.candidate], by simp [ReassignPhase.pastRemove], id⟩
      | ok v =>
        rw [RemoveReviewerFromPR_ok_state B db db1 p o v hrem]
        have hgone : (p, o) ∉ db.prReviewers.filter (fun a => !(a == (p, o))) := by
          intro hmem
          have := (List.mem_filter.mp hmem).2
          simp at this
        refine ⟨hnd.filter _, ?_, fun _ => hgone, fun _ => hgone⟩
        intro c hceq
        have hceq2 : newReviewer = c := by simpa [ReassignPhase.candidate] using hceq
        rw [← hceq2]; exact hne
  | removed newReviewer =>
    have hne : newReviewer.ID ≠ o := hc newReviewer rfl
    have hgone : (p, o) ∉ db.prReviewers := hpast rfl
    simp only [reassignStep]
    cases hadd : AddReviewerToPR B db p newReviewer.ID with
    | mk r db1 =>
      cases r with
      | error e =>
        rw [AddReviewerToPR_error_state B db db1 p newReviewer.ID e hadd]
        exact ⟨hnd, by simp [ReassignPhase.candidate], by simp [ReassignPhase.pastRemove], id⟩
      | ok v =>
        obtain ⟨_, hnew⟩ := AddReviewerToPR_ok_checks B db db1 p newReviewer.ID v hadd
        rw [AddReviewerToPR_ok_state B db db1 p newReviewer.ID v hadd]
        have hgone2 : (p, o) ∉ db.prReviewers ++ [(p, newReviewer.ID)] := by
          intro hmem
          rcases List.mem_append.mp hmem with h | h
          · exact hgone h
          · have : o = newReviewer.ID := by simpa using h
            exact hne this.symm
        refine ⟨?_, ?_, fun _ => hgone2, fun _ => hgone2⟩
        · exact List.Nodup.append hnd (List.nodup_singleton _)
            (by
              intro x hx hx2
              have : x = (p, newReviewer.ID) := by simpa using hx2
              subst this
              exact hnew hx)
        · intro c hceq
          have hceq2 : newReviewer = c := by simpa [ReassignPhase.candidate] using hceq
          rw [← hceq2]; exact hne
  | added newReviewer =>
    have hne : newReviewer.ID ≠ o := hc newReviewer rfl
    have hgone : (p, o) ∉ db.prReviewers := hpast rfl
    simp only [reassignStep]
    cases GetPullRequest B db p with
    | error _ => exact ⟨hnd, by simp [ReassignPhase.candidate], by simp [ReassignPhase.pastRemove], id⟩
    | ok updatedPR =>
      refine ⟨hnd, ?_, fun _ => hgone, id⟩
      intro c hceq
      have hceq2 : newReviewer = c := by simpa [ReassignPhase.candidate] using hceq
      rw [← hceq2]; exact hne
  | gotUpdated newReviewer updatedPR =>
    have hgone : (p, o) ∉ db.prReviewers := hpast rfl
    simp only [reassignStep]
    exact ⟨hnd, by simp [ReassignPhase.candidate], fun _ => hgone, id⟩
  | done result =>
    simp only [reassignStep]
    exact ⟨hnd, by simp [ReassignPhase.candidate], hpast, id⟩

theorem runSchedule_keeps (L : Lib) (B : Backend) (p o : UUID)
    (hold : ∀ d, ∀ u ∈ B.candidatesForReassignment d o p, u.ID ≠ o) :
    ∀ (schedule : List Bool) (s : TwoRequests),
      s.db.prReviewers.Nodup →
      (∀ c, s.first.candidate = some c → c.ID ≠ o) →
      (∀ c, s.second.candidate = some c → c.ID ≠ o) →
      (s.first.pastRemove = true ∨ s.second.pastRemove = true → (p, o) ∉ s.db.prReviewers) →
      (runSchedule L B p o schedule s).db.prReviewers.Nodup
      ∧ ((runSchedule L B p o schedule s).first.pastRemove = true
          ∨ (runSchedule L B p o schedule s).second.pastRemove = true →
          (p, o) ∉ (runSchedule L B p o schedule s).db.prReviewers) := by
  intro schedule
  induction schedule with
  | nil => intro s hnd _ _ hpast; exact ⟨hnd, hpast⟩
  | cons who rest ih =>
    intro s hnd hc1 hc2 hpast
    have hrun : runSchedule L B p o (who :: rest) s
        = runSchedule L B p o rest (stepTwo L B p o who s) := rfl
    rw [hrun]
    cases who with
    | true =>
      obtain ⟨k1, k2, k3, k4⟩ := reassignStep_keeps L B p o hold s.first s.db hnd hc1
        (fun h => hpast (Or.inl h))
      apply ih (stepTwo L B p o true s)
      · exact k1
      · exact k2
      · exact hc2
      · intro h
        rcases h with h | h
        · exact k3 h
        · exact k4 (hpast (Or.inr h))
    | false =>
      obtain ⟨k1, k2, k3, k4⟩ := reassignStep_keeps L B p o hold s.second s.db hnd hc2
        (fun h => hpast (Or.inr h))
      apply ih (stepTwo L B p o false s)
      · exact k1
      · exact hc1
      · exact k2
      · intro h
        rcases h with h | h
        · exact k4 (hpast (Or.inl h))
        · exact k3 h

theorem pastRemove_of_succeeded (ph : ReassignPhase) (h : ph.succeeded = true) :
    ph.pastRemove = true := by
  cases ph with
  | done result =>
    cases result with
    | ok d => rfl
    | error e => simp [ReassignPhase.succeeded] at h
  | _ => simp [ReassignPhase.succeeded] at h

/-- C16. Two `ReassignReviewer` requests for the same pull request `p` and the
same old reviewer `o` run interleaved, store call by store call, in any order
and with whichever store calls failing, from a state without a duplicate
assignment row and over a candidate query that never returns the old reviewer.
At every point of every interleaving the assignment rows of `p`, and any
reviewer list read from them, hold no user twice; and once the removal of one
of the requests has gone through and that request has not failed (in
particular once a request has returned successfully), no row of the old
reviewer is left. -/
theorem interleaved_reassign_consistent (L : Lib) (B : Backend) (p o : UUID) (db0 : DB)
    (schedule : List Bool)
    (hold : ∀ d, ∀ u ∈ B.candidatesForReassignment d o p, u.ID ≠ o)
    (hnd : db0.prReviewers.Nodup) :
    (assignedIDs (runSchedule L B p o schedule ⟨.start, .start, db0⟩).db p).Nodup
    ∧ (∀ rs, GetReviewersForPR B (runSchedule L B p o schedule ⟨.start, .start, db0⟩).db p
          = .ok rs → (rs.map (fun r => r.ID)).Nodup)
    ∧ ((runSchedule L B p o schedule ⟨.start, .start, db0⟩).first.pastRemove = true
        ∨ (runSchedule L B p o schedule ⟨.start, .start, db0⟩).second.pastRemove = true →
        o ∉ assignedIDs (runSchedule L B p o schedule ⟨.start, .start, db0⟩).db p)
    ∧ ((runSchedule L B p o schedule ⟨.start, .start, db0⟩).first.succeeded = true
        ∨ (runSchedule L B p o schedule ⟨.start, .start, db0⟩).second.succeeded = true →
        o ∉ assignedIDs (runSchedule L B p o schedule ⟨.start, .start, db0⟩).db p
        ∧ ∀ rs, GetReviewersForPR B (runSchedule L B p o schedule ⟨.start, .start, db0⟩).db p
            = .ok rs → o ∉ rs.map (fun r => r.ID)) := by
  obtain ⟨k1, k2⟩ := runSchedule_keeps L B p o hold schedule ⟨.start, .start, db0⟩ hnd
    (by simp [ReassignPhase.candidate]) (by simp [ReassignPhase.candidate])
    (by simp [ReassignPhase.pastRemove])
  have hids : ∀ rs, GetReviewersForPR B
      (runSchedule L B p o schedule ⟨.start, .start, db0⟩).db p = .ok rs →
      rs.map (fun r => r.ID)
        = (assignedIDs (runSchedule L B p o schedule ⟨.start, .start, db0⟩).db p).filter
            (fun uid => (runSchedule L B p o schedule ⟨.start, .start, db0⟩).db.users.any
              (fun u => u.ID == uid)) := by
    intro rs hrs
    unfold GetReviewersForPR at hrs
    split at hrs
    · simp at hrs
    · rw [← Except.ok.inj hrs]
      exact map_ID_filterMap_find _ _
  have hnd2 := assignedIDs_nodup (runSchedule L B p o schedule ⟨.start, .start, db0⟩).db p k1
  have habsent : (runSchedule L B p o schedule ⟨.start, .start, db0⟩).first.pastRemove = true
      ∨ (runSchedule L B p o schedule ⟨.start, .start, db0⟩).second.pastRemove = true →
      o ∉ assignedIDs (runSchedule L B p o schedule ⟨.start, .start, db0⟩).db p :=
    fun h hmem => k2 h ((mem_assignedIDs _ p o).mp hmem)
  refine ⟨hnd2, ?_, habsent, ?_⟩
  · intro rs hrs
    rw [hids rs hrs]
    exact hnd2.filter _
  · intro h
    have hpast : (runSchedule L B p o schedule ⟨.start, .start, db0⟩).first.pastRemove = true
        ∨ (runSchedule L B p o schedule ⟨.start, .start, db0⟩).second.pastRemove = true := by
      rcases h with h | h
      · exact Or.inl (pastRemove_of_succeeded _ h)
      · exact Or.inr (pastRemove_of_succeeded _ h)
    refine ⟨habsent hpast, ?_⟩
    intro rs hrs hmem
    rw [hids rs hrs] at hmem
    exact habsent hpast (List.mem_filter.mp hmem).1

/-- Worked example for C16: on the open pull request 10 with reviewers 2 and 3,
two requests to reassign reviewer 2 take turns call by call. Both read the
candidate 4; the first succeeds, the second fails on the unique
`(pr_id, user_id)`; the reviewers are then 3 and 4. -/
theorem interleaved_reassign_consistent_witness :
    (assignedIDs (runSchedule exLib exHonestBackend 10 2
        [true, false, true, false, true, false, true, false, true, false, true, false, true,
          false] ⟨.start, .start, exDBOpen⟩).db 10).Nodup
    ∧ 2 ∉ assignedIDs (runSchedule exLib exHonestBackend 10 2
        [true, false, true, false, true, false, true, false, true, false, true, false, true,
          false] ⟨.start, .start, exDBOpen⟩).db 10
    ∧ assignedIDs (runSchedule exLib exHonestBackend 10 2
        [true, false, true, false, true, false, true, false, true, false, true, false, true,
          false] ⟨.start, .start, exDBOpen⟩).db 10 = [3, 4]
    ∧ (runSchedule exLib exHonestBackend 10 2
        [true, false, true, false, true, false, true, false, true, false, true, false, true,
          false] ⟨.start, .start, exDBOpen⟩).second
      = .done (.error (.pgError "23505" "violates constraint pr_reviewers_pkey")) :=
  have h := interleaved_reassign_consistent exLib exHonestBackend 10 2 exDBOpen
    [true, false, true, false, true, false, true, false, true, false, true, false, true, false]
    (fun d u hu => (exHonestBackend_contract.2 d 2 10 u hu).1) (by decide)
  ⟨h.1, (h.2.2.2 (Or.inl (by decide))).1, by decide, by decide⟩

/-! ## Validation of a team request -/

theorem validateMembers_malformed (L : Lib) (m : TeamMemberDetails) (e : GoError)
    (hbad : L.uuidParse m.UserID = .error e) :
    ∀ members : List TeamMemberDetails, m ∈ members →
      ∃ message, validateMembers L members = some message := by
  intro members
  induction members with
  | nil => intro hm; exact absurd hm (List.not_mem_nil _)
  | cons member rest ih =>
    intro hm
    cases hparse : L.uuidParse member.UserID with
    | error e1 => simp [validateMembers, hparse]
    | ok uid =>
      by_cases hname : stringsTrimSpace member.Username = ""
      · simp [validateMembers, hparse, hname]
      · have hrest : m ∈ rest := by
          rcases List.mem_cons.mp hm with h | h
          · rw [h, hparse] at hbad
            exact Except.noConfusion hbad
          · exact h
        obtain ⟨message, hmsg⟩ := ih hrest
        simp [validateMembers, hparse, hname, hmsg]

theorem upsertMembersLoop_malformed (L : Lib) (B : Backend) (team : Team) (teamName : String)
    (m : TeamMemberDetails) (e : GoError) (hbad : L.uuidParse m.UserID = .error e) :
    ∀ (members done : List TeamMemberDetails) (db : DB), m ∈ members →
      ∃ err, (upsertMembersLoop L B team teamName members done db).1 = .error err := by
  intro members
  induction members with
  | nil => intro done db hm; exact absurd hm (List.not_mem_nil _)
  | cons member rest ih =>
    intro done db hm
    cases hparse : L.uuidParse member.UserID with
    | error e1 => simp [upsertMembersLoop, hparse]
    | ok uid =>
      have hrest : m ∈ rest := by
        rcases List.mem_cons.mp hm with h | h
        · rw [h, hparse] at hbad
          exact Except.noConfusion hbad
        · exact h
      cases hup : UpsertUser B db uid member.Username (teamReference team.ID) member.IsActive with
      | mk r db1 =>
        cases r with
        | error e2 => simp [upsertMembersLoop, hparse, hup]
        | ok u =>
          obtain ⟨err, herr⟩ := ih (done ++ [member]) db1 hrest
          simp [upsertMembersLoop, hparse, hup, herr]

/-- C15, amended. When the member list of a team request holds a member whose id
`uuid.Parse` rejects, whatever its position, `Handler.CreateTeamWithMembers`
answers 400 `BAD_REQUEST` and leaves the database as it was, for every backend:
the service is not called, no team is created and no user upserted.
`Service.CreateTeamWithMembers` given such a list returns a failure as well. -/
theorem malformed_member_rejected_by_handler (L : Lib) (B : Backend) (teamName : String)
    (members : List TeamMemberDetails) (db : DB) (m : TeamMemberDetails) (e : GoError)
    (hm : m ∈ members) (hbad : L.uuidParse m.UserID = .error e) :
    (∃ message, handleCreateTeamWithMembers L B teamName members db
        = (.failure 400 "BAD_REQUEST" message, db))
    ∧ (∃ err, (CreateTeamWithMembers L B teamName members db).1 = .error err) := by
  constructor
  · obtain ⟨message, hmsg⟩ := validateMembers_malformed L m e hbad members hm
    unfold handleCreateTeamWithMembers
    simp only
    split
    · exact ⟨_, rfl⟩
    · split
      · exact ⟨_, rfl⟩
      · rw [hmsg]
        exact ⟨_, rfl⟩
  · cases hct : CreateTeam B db teamName with
    | mk r db1 =>
      cases r with
      | error err => simp [CreateTeamWithMembers, hct]
      | ok team =>
        obtain ⟨err, herr⟩ :=
          upsertMembersLoop_malformed L B team teamName m e hbad members [] db1 hm
        cases hl : upsertMembersLoop L B team teamName members [] db1 with
        | mk r2 db2 =>
          rw [hl] at herr
          cases r2 with
          | error err2 => simp [CreateTeamWithMembers, hct, hl]
          | ok v => simp at herr

/-- Worked example for C15, amended: the request for team `a` with the members
`1` and `zz` is answered 400 `BAD_REQUEST` and the empty store stays empty. -/
theorem malformed_member_rejected_by_handler_witness :
    handleCreateTeamWithMembers exLib (exBackend [] []) "a"
        [exMember "1" "x", exMember "zz" "y"] emptyDB
      = (.failure 400 "BAD_REQUEST" "invalid user_id format (must be UUID)", emptyDB) := by
  obtain ⟨message, h⟩ := (malformed_member_rejected_by_handler exLib (exBackend [] []) "a"
    [exMember "1" "x", exMember "zz" "y"] emptyDB (exMember "zz" "y")
    (.errorString "invalid UUID format") (by decide) rfl).1
  rw [h]
  have hd : (handleCreateTeamWithMembers exLib (exBackend [] []) "a"
      [exMember "1" "x", exMember "zz" "y"] emptyDB).1
      = .failure 400 "BAD_REQUEST" "invalid user_id format (must be UUID)" := by decide
  rw [h] at hd
  exact Prod.ext hd rfl

end PrReviewer
